import Mathlib

/-!
# Sale creation and the daily sales summary (src/routes/sales.js)

A shallow embedding of the sale-creation handler `router.post('/')`, of its
helpers `createSale` and `updateDailySummary`, and of the read handler
`router.get('/summary/daily')`, over the tables declared in
`src/database/init.js`.

Modelling conventions.

* The database is a record of tables; a table is the list of its rows in
  insertion order.  A handler is a function from the database before the
  request to the database after it, paired with the HTTP response.
* The type `M` of amounts (`DECIMAL(10,2)` columns, JavaScript numbers in the
  handler) is a parameter of the embedding, with the three operations the
  route uses: `0`, `+` and the product of an amount by a quantity.  No law is
  assumed of them.  `Double` is the instance of the code, IEEE binary64 with
  round to nearest even; `Money` is the instance of exact amounts counted in
  hundredths (the price 1.50 is `150`), used where a property is about exact
  sums and in the concrete states.
* SQLite `INTEGER` values and JavaScript integers are unbounded `Int`.
* Timestamp columns (`created_at`, `updated_at`) hold wall-clock readings and
  are left out, as are the product columns the sales route never reads or
  writes (barcode, category, min_stock, expiry_date, supplier, description).
* In `postSale` statements fail only on the constraint violations the schema
  itself declares (UNIQUE receipt_number, CHECK payment_method, an unknown
  column name).  `postSaleWithFaults` adds failures from outside the schema
  for the sale insert and the summary upsert; it is `postSale` when no such
  failure occurs.
* `routerPost` is the route on the body as received, with the validator
  chain in front of `postSale`.
* Requests do not interleave.  Within a request the `db.get` calls are queued
  inside `db.serialize` and run in basket order; the item inserts are issued
  from a callback, after `db.serialize` has returned, and the store runs them
  in an order of its own, which the call receives as `Env.itemOrder`.
-/

namespace Supermarket

/-- Exact amounts, counted in hundredths of the currency unit. -/
abbrev Money := Int

set_option linter.unusedSectionVars false

variable {M : Type} [Zero M] [Add M] [HMul M Int M]

/-! ## Tables (src/database/init.js) -/

/-- Row of `products`, restricted to `SELECT id, name, price, stock`. -/
structure Product (M : Type) where
  id : Int
  name : String
  price : M
  stock : Int
deriving DecidableEq, Repr

/-- Row of `sales`. -/
structure Sale (M : Type) where
  id : Int
  receipt_number : String
  cashier_id : Int
  total : M
  payment_method : String
  customer_name : Option String
  customer_phone : Option String
  notes : Option String
deriving DecidableEq, Repr

/-- Row of `sale_items`. -/
structure SaleItem (M : Type) where
  id : Int
  sale_id : Int
  product_id : Int
  quantity : Int
  unit_price : M
  total_price : M
deriving DecidableEq, Repr

/-- Row of `daily_sales_summary`; every amount column has `DEFAULT 0`. -/
structure DailySummary (M : Type) where
  id : Int
  date : String
  total_sales : M
  cash_sales : M
  card_sales : M
  debt_sales : M
  momo_sales : M
  airtel_money_sales : M
  total_transactions : Int
deriving DecidableEq, Repr

/-- Row of `audit_logs`, restricted to the columns the sales route fills. -/
structure AuditLog where
  id : Int
  user_id : Int
  action : String
  table_name : String
  record_id : Int
deriving DecidableEq, Repr

/-- The `sqlite_sequence` bookkeeping of the AUTOINCREMENT tables: the largest
rowid ever handed out for each table. -/
structure Sequences where
  sales : Int
  sale_items : Int
  daily_sales_summary : Int
  audit_logs : Int
deriving DecidableEq, Repr

/-- The database state. -/
structure Db (M : Type) where
  products : List (Product M)
  sales : List (Sale M)
  sale_items : List (SaleItem M)
  daily_sales_summary : List (DailySummary M)
  audit_logs : List AuditLog
  sqlite_sequence : Sequences
deriving DecidableEq, Repr

/-- Rowid chosen by `INTEGER PRIMARY KEY AUTOINCREMENT`: one more than the
largest rowid that is or ever was in the table. -/
def nextRowid (seq : Int) (ids : List Int) : Int :=
  max seq (ids.foldl max 0) + 1

/-- The five per-method amount columns of `daily_sales_summary`. -/
inductive PaymentColumn where
  | cash_sales
  | card_sales
  | debt_sales
  | momo_sales
  | airtel_money_sales
deriving DecidableEq, Repr

/-- Resolve a column name against the payment columns of the table. -/
def PaymentColumn.ofName (name : String) : Option PaymentColumn :=
  if name = "cash_sales" then some .cash_sales
  else if name = "card_sales" then some .card_sales
  else if name = "debt_sales" then some .debt_sales
  else if name = "momo_sales" then some .momo_sales
  else if name = "airtel_money_sales" then some .airtel_money_sales
  else none

/-- Read a payment column of a summary row. -/
def DailySummary.get (r : DailySummary M) : PaymentColumn → M
  | .cash_sales => r.cash_sales
  | .card_sales => r.card_sales
  | .debt_sales => r.debt_sales
  | .momo_sales => r.momo_sales
  | .airtel_money_sales => r.airtel_money_sales

/-- Write a payment column of a summary row. -/
def DailySummary.set (r : DailySummary M) (c : PaymentColumn) (v : M) : DailySummary M :=
  match c with
  | .cash_sales => { r with cash_sales := v }
  | .card_sales => { r with card_sales := v }
  | .debt_sales => { r with debt_sales := v }
  | .momo_sales => { r with momo_sales := v }
  | .airtel_money_sales => { r with airtel_money_sales := v }

/-! ## Requests and responses -/

/-- One entry of `req.body.items`. -/
structure Item where
  product_id : Int
  quantity : Int
deriving DecidableEq, Repr

/-- Body of `POST /`, after the `trim` sanitisers. -/
structure SaleRequest where
  items : List Item
  payment_method : String
  customer_name : Option String
  customer_phone : Option String
  notes : Option String
deriving DecidableEq, Repr

/-- What a call of `POST /` reads from outside the database: the
authenticated user, the generated receipt number, the calendar date, and the
schedule by which the store orders the item inserts of the call (see
`reorder`). -/
structure Env where
  user_id : Int
  receiptNumber : String
  today : String
  itemOrder : List Nat
deriving DecidableEq, Repr

/-- Response of `POST /`. -/
inductive Response (M : Type) where
  /-- Status 201 with `data: {id, receipt_number, total}`. -/
  | created (id : Int) (receipt_number : String) (total : M)
  /-- Status 400 with a message. -/
  | badRequest (message : String)
  /-- Status 500 with a message. -/
  | serverError (message : String)
deriving DecidableEq, Repr

/-- The response is the 201 of a created sale. -/
def Response.isCreated : Option (Response M) → Bool
  | some (.created _ _ _) => true
  | _ => false

/-! ## router.post('/') -/

/-- The list of `isIn([...])` in the `payment_method` validator. -/
def validPaymentMethods : List String :=
  ["cash", "card", "debt", "momo", "airtel_money"]

/-- The list of the CHECK constraint on `sales.payment_method`. -/
def checkPaymentMethods : List String :=
  ["cash", "card", "debt", "momo", "airtel_money"]

/-- True when `validationResult(req).isEmpty()`, for the express-validator
chain of the route: `items` is an array of at least one entry, each quantity
is an integer not below 1, the payment method is in the list (product ids
are integers by type). -/
def validationResult (req : SaleRequest) : Bool :=
  !req.items.isEmpty
    && req.items.all (fun item => decide (1 ≤ item.quantity))
    && validPaymentMethods.contains req.payment_method

/-- An entry of the `saleItems` array built by the validate-and-total loop. -/
structure SaleItemDraft (M : Type) where
  product_id : Int
  quantity : Int
  unit_price : M
  total_price : M
deriving DecidableEq, Repr

/-- The closure variables of the handler, with the response sent so far. -/
structure Loop (M : Type) where
  totalAmount : M
  processedItems : Nat
  saleItems : List (SaleItemDraft M)
  response : Option (Response M)
deriving DecidableEq, Repr

/-- State at `let totalAmount = 0; let processedItems = 0; const saleItems = []`. -/
def Loop.init : Loop M :=
  { totalAmount := 0, processedItems := 0, saleItems := [], response := none }

/-- Send a response; only the first one of a request reaches the client. -/
def Loop.respond (st : Loop M) (r : Response M) : Loop M :=
  match st.response with
  | none => { st with response := some r }
  | some _ => st

/-- Message of the unknown-product response. -/
def notFoundMessage (product_id : Int) : String :=
  "Product with ID " ++ toString product_id ++ " not found"

/-- Message of the insufficient-stock response. -/
def insufficientStockMessage (product : Product M) (quantity : Int) : String :=
  "Insufficient stock for " ++ product.name ++ ". Available: " ++ toString product.stock
    ++ ", Requested: " ++ toString quantity

/-- The statement `SELECT id, name, price, stock FROM products WHERE id = ?`. -/
def getProduct (db : Db M) (product_id : Int) : Option (Product M) :=
  db.products.find? (fun p => p.id == product_id)

/-- The callback of `db.get` for one basket line.  A failing line answers 400
and returns from the callback only: the remaining callbacks still run, but
`processedItems` can then no longer reach `items.length`. -/
def onProduct (db : Db M) (st : Loop M) (item : Item) : Loop M :=
  match getProduct db item.product_id with
  | none => st.respond (.badRequest (notFoundMessage item.product_id))
  | some product =>
    if product.stock < item.quantity then
      st.respond (.badRequest (insufficientStockMessage product item.quantity))
    else
      let itemTotal := product.price * item.quantity
      { st with
        totalAmount := st.totalAmount + itemTotal
        saleItems := st.saleItems ++
          [{ product_id := product.id, quantity := item.quantity,
             unit_price := product.price, total_price := itemTotal }]
        processedItems := st.processedItems + 1 }

/-- The statement `INSERT INTO sales (...) VALUES (...)` followed by
`this.lastID`; it fails on a duplicate receipt number and on a payment method
outside the CHECK list. -/
def insertSale (db : Db M) (receipt_number : String) (cashier_id : Int) (total : M)
    (payment_method : String) (customer_name customer_phone notes : Option String) :
    Option (Db M × Int) :=
  if db.sales.any (fun s => s.receipt_number == receipt_number) then none
  else if !checkPaymentMethods.contains payment_method then none
  else
    let saleId := nextRowid db.sqlite_sequence.sales (db.sales.map (fun s => s.id))
    some ({ db with
            sales := db.sales ++
              [{ id := saleId, receipt_number := receipt_number, cashier_id := cashier_id,
                 total := total, payment_method := payment_method,
                 customer_name := customer_name, customer_phone := customer_phone,
                 notes := notes }]
            sqlite_sequence := { db.sqlite_sequence with sales := saleId } }, saleId)

/-- The statement `INSERT INTO sale_items (sale_id, product_id, quantity,
unit_price, total_price) VALUES (?, ?, ?, ?, ?)`. -/
def insertSaleItem (saleId : Int) (db : Db M) (saleItem : SaleItemDraft M) : Db M :=
  let id := nextRowid db.sqlite_sequence.sale_items (db.sale_items.map (fun i => i.id))
  { db with
    sale_items := db.sale_items ++
      [{ id := id, sale_id := saleId, product_id := saleItem.product_id,
         quantity := saleItem.quantity, unit_price := saleItem.unit_price,
         total_price := saleItem.total_price }]
    sqlite_sequence := { db.sqlite_sequence with sale_items := id } }

/-- The statement `UPDATE products SET stock = stock - ? WHERE id = ?`. -/
def updateStock (db : Db M) (saleItem : SaleItemDraft M) : Db M :=
  { db with
    products := db.products.map (fun p =>
      if p.id = saleItem.product_id then { p with stock := p.stock - saleItem.quantity } else p) }

/-- The column name built by updateDailySummary from the payment method. -/
def paymentColumn (paymentMethod : String) : String :=
  paymentMethod ++ "_sales"

/-- The SQL function `COALESCE(x, d)`. -/
def coalesce {α : Type} (x : Option α) (d : α) : α :=
  x.getD d

/-- The statement of `updateDailySummary`:
`INSERT OR REPLACE INTO daily_sales_summary (date, total_sales, <paymentColumn>,
total_transactions, updated_at) VALUES (...)`.  The three sub-selects read the
row of `today` before the statement writes; REPLACE deletes that row (UNIQUE
date) and inserts a fresh one, whose unlisted columns take their defaults.
The statement fails when `<paymentColumn>` is no payment column. -/
def updateDailySummary (amount : M) (paymentMethod : String) (today : String) (db : Db M) :
    Option (Db M) :=
  match PaymentColumn.ofName (paymentColumn paymentMethod) with
  | none => none
  | some col =>
    let existing : Option (DailySummary M) :=
      db.daily_sales_summary.find? (fun r => r.date == today)
    let id := nextRowid db.sqlite_sequence.daily_sales_summary
      (db.daily_sales_summary.map (fun r => r.id))
    let defaults : DailySummary M :=
      { id := id, date := today, total_sales := 0, cash_sales := 0, card_sales := 0,
        debt_sales := 0, momo_sales := 0, airtel_money_sales := 0, total_transactions := 0 }
    let row : DailySummary M :=
      { defaults with
        total_sales := coalesce (existing.map (fun (r : DailySummary M) => r.total_sales)) 0 + amount
        total_transactions := coalesce (existing.map (fun (r : DailySummary M) => r.total_transactions)) 0 + 1 }.set col
        (coalesce (existing.map (fun (r : DailySummary M) => r.get col)) 0 + amount)
    some { db with
           daily_sales_summary :=
             db.daily_sales_summary.filter (fun r => r.date != today) ++ [row]
           sqlite_sequence := { db.sqlite_sequence with daily_sales_summary := id } }

/-- The statement `INSERT INTO audit_logs (user_id, action, table_name,
record_id) VALUES (?, ?, ?, ?)`. -/
def insertAuditLog (db : Db M) (user_id : Int) (action table_name : String) (record_id : Int) :
    Db M :=
  let id := nextRowid db.sqlite_sequence.audit_logs (db.audit_logs.map (fun a => a.id))
  { db with
    audit_logs := db.audit_logs ++
      [{ id := id, user_id := user_id, action := action, table_name := table_name,
         record_id := record_id }]
    sqlite_sequence := { db.sqlite_sequence with audit_logs := id } }

/-- The order in which the store runs statements issued together outside
`db.serialize`.  The statement at the head of the queue is placed, among the
statements behind it, at the position the schedule gives (cut to their
number); an empty schedule keeps the queue order.  Every schedule gives a
permutation of the queue and every permutation is given by some schedule. -/
def reorder {α : Type} : List Nat → List α → List α
  | _, [] => []
  | [], x :: xs => x :: xs
  | k :: ks, x :: xs =>
    let rest := reorder ks xs
    rest.insertIdx (min k rest.length) x

/-- The function `createSale`, entered with the database as it was at BEGIN
TRANSACTION (the loop before it only reads).  A failed sale insert issues
ROLLBACK and answers 500.  The item inserts are issued by the `forEach` in
the callback of the sale insert, outside `db.serialize`: the store runs them
in the order `env.itemOrder` gives.  Each stock update is issued by the
callback of its insert; inserts and updates write different tables.  With an
empty `saleItems` the `forEach` issues nothing, so nothing is committed or
answered (the validator excludes that case).  The callback of
updateDailySummary ignores its error argument, so a failed upsert is followed
by COMMIT all the same; the audit row is inserted after COMMIT. -/
def createSale (env : Env) (req : SaleRequest) (db : Db M) (st : Loop M) :
    Db M × Option (Response M) :=
  match insertSale db env.receiptNumber env.user_id st.totalAmount req.payment_method
      req.customer_name req.customer_phone req.notes with
  | none => (db, some (.serverError "Failed to create sale"))
  | some (db1, saleId) =>
    match st.saleItems with
    | [] => (db1, none)
    | _ :: _ =>
      let ordered := reorder env.itemOrder st.saleItems
      let db2 := ordered.foldl (insertSaleItem saleId) db1
      let db3 := ordered.foldl updateStock db2
      let db4 := (updateDailySummary st.totalAmount req.payment_method env.today db3).getD db3
      let db5 := insertAuditLog db4 env.user_id "CREATE_SALE" "sales" saleId
      (db5, some (.created saleId env.receiptNumber st.totalAmount))

/-- The handler `router.post('/')`.  Every failure path before `createSale`
issues ROLLBACK without having written, so it leaves the database as found.
The test `processedItems === items.length` sits in the callback of each
passing line; it can hold in the last callback only, so it is evaluated here
after the loop. -/
def postSale (env : Env) (req : SaleRequest) (db : Db M) : Db M × Option (Response M) :=
  if !validationResult req then (db, some (.badRequest "Validation failed"))
  else
    let st := req.items.foldl (onProduct db) Loop.init
    if st.processedItems = req.items.length then createSale env req db st
    else (db, st.response)

/-- A sequence of sale-creation calls, one after the other. -/
def postSales (calls : List (Env × SaleRequest)) (db : Db M) : Db M :=
  calls.foldl (fun d call => (postSale call.1 call.2 d).1) db

/-! ## router.get('/summary/daily') -/

/-- The `data` object of the daily-summary response: a table row carries its
rowid, the zero-filled stand-in does not. -/
structure SummaryView (M : Type) where
  id : Option Int
  date : String
  total_sales : M
  cash_sales : M
  card_sales : M
  debt_sales : M
  momo_sales : M
  airtel_money_sales : M
  total_transactions : Int
deriving DecidableEq, Repr

/-- Response of `GET /summary/daily`. -/
inductive SummaryResponse (M : Type) where
  /-- Status 200 with `success: true` and the summary. -/
  | ok (data : SummaryView M)
  /-- Status 500, `Database error`. -/
  | serverError (message : String)
deriving DecidableEq, Repr

/-- The object `SELECT *` yields for a row. -/
def DailySummary.toView (r : DailySummary M) : SummaryView M :=
  { id := some r.id, date := r.date, total_sales := r.total_sales, cash_sales := r.cash_sales,
    card_sales := r.card_sales, debt_sales := r.debt_sales, momo_sales := r.momo_sales,
    airtel_money_sales := r.airtel_money_sales, total_transactions := r.total_transactions }

/-- The expression `date || today`: an absent or empty query value is falsy. -/
def targetDate (date : Option String) (today : String) : String :=
  match date with
  | none => today
  | some d => if d = "" then today else d

/-- The handler `router.get('/summary/daily')`. -/
def getSummaryDaily (today : String) (date : Option String) (db : Db M) : Db M × SummaryResponse M :=
  let target := targetDate date today
  match db.daily_sales_summary.find? (fun r => r.date == target) with
  | some summary => (db, .ok summary.toView)
  | none =>
    (db, .ok { id := none, date := target, total_sales := 0, cash_sales := 0, card_sales := 0,
               debt_sales := 0, momo_sales := 0, airtel_money_sales := 0,
               total_transactions := 0 })

/-! ## The validator chain of router.post('/') on the body as received -/

/-- A scalar of the JSON body as a standard validator sees it after
`toString`: an integer (the number or its decimal text, which `isInt`
accepts and which JavaScript and SQLite coerce to that number), or any other
scalar (absent, null, a fraction, other text), by its text. -/
inductive Scalar where
  | int (n : Int)
  | other (text : String)
deriving DecidableEq, Repr

/-- A field of the JSON body: one scalar, or an array of scalars (deeper
nesting is not modelled). -/
inductive Value where
  | one (value : Scalar)
  | array (elements : List Scalar)
deriving DecidableEq, Repr

/-- The values a standard validator of express-validator is run on,
`Array.isArray(value) ? value : [value]`: an array is validated element by
element, so an empty array is never in error. -/
def Value.elements : Value → List Scalar
  | .one value => [value]
  | .array elements => elements

/-- The text `toString` hands to a standard validator. -/
def Scalar.toText : Scalar → String
  | .int n => toString n
  | .other text => text

/-- An element of `req.body.items` as received. -/
structure RawItem where
  product_id : Value
  quantity : Value
deriving DecidableEq, Repr

/-- The fields of `req.body` the route reads; `items` is `none` when the
field is absent or not an array. -/
structure Body where
  items : Option (List RawItem)
  payment_method : Value
  customer_name : Option String
  customer_phone : Option String
  notes : Option String
deriving DecidableEq, Repr

/-- The validator `isArray({ min })`, a custom validator: it is run on the
value itself. -/
def isArray (min : Nat) (items : Option (List RawItem)) : Bool :=
  match items with
  | none => false
  | some entries => decide (min ≤ entries.length)

/-- The test of `isInt()` (no bound) and `isInt({ min })` on one scalar. -/
def Scalar.isInt (min : Option Int) (value : Scalar) : Bool :=
  match value with
  | .other _ => false
  | .int n =>
    match min with
    | none => true
    | some m => decide (m ≤ n)

/-- The standard validators `isInt()` and `isInt({ min })`. -/
def isInt (min : Option Int) (value : Value) : Bool :=
  value.elements.all (Scalar.isInt min)

/-- The standard validator `isIn(options)`. -/
def isIn (options : List String) (value : Value) : Bool :=
  value.elements.all (fun element => options.contains element.toText)

/-- True when `validationResult(req).isEmpty()`: no validator of the chain
`body('items').isArray({ min: 1 })`, `body('items.*.product_id').isInt()`,
`body('items.*.quantity').isInt({ min: 1 })`,
`body('payment_method').isIn([...])` reports an error. -/
def Body.errorsIsEmpty (body : Body) : Bool :=
  isArray 1 body.items
    && (body.items.getD []).all (fun item => isInt none item.product_id)
    && (body.items.getD []).all (fun item => isInt (some 1) item.quantity)
    && isIn validPaymentMethods body.payment_method

/-- The integer a field carries when it is a single integer. -/
def Value.int? : Value → Option Int
  | .one (.int n) => some n
  | _ => none

/-- The text a field carries when it is a single scalar. -/
def Value.text? : Value → Option String
  | .one value => some value.toText
  | .array _ => none

/-- The basket line of an entry whose product id and quantity are single
integers. -/
def RawItem.toItem? (raw : RawItem) : Option Item :=
  match raw.product_id.int?, raw.quantity.int? with
  | some product_id, some quantity => some { product_id := product_id, quantity := quantity }
  | _, _ => none

/-- The basket of a list of entries that are all lines of single integers. -/
def toItems? : List RawItem → Option (List Item)
  | [] => some []
  | raw :: rest =>
    match raw.toItem?, toItems? rest with
    | some item, some items => some (item :: items)
    | _, _ => none

/-- The destructuring `const { items, payment_method, ... } = req.body` when
every product id, quantity and the payment method is a single scalar. -/
def Body.toRequest? (body : Body) : Option SaleRequest :=
  match body.items, body.payment_method.text? with
  | some entries, some payment_method =>
    (toItems? entries).map (fun items =>
      { items := items, payment_method := payment_method,
        customer_name := body.customer_name, customer_phone := body.customer_phone,
        notes := body.notes })
  | _, _ => none

/-- How far the route takes a body. -/
inductive Dispatch where
  /-- The chain reported an error: 400 `Validation failed`, before
  `db.serialize`. -/
  | invalid
  /-- The chain passed and every field is a single scalar: the handler runs
  the transaction on this request. -/
  | engine (req : SaleRequest)
  /-- The chain passed although a field is an array: the handler enters
  `db.serialize` and issues its statements with array values where it
  expects integers or text; what JavaScript and SQLite make of them is not
  followed here. -/
  | unfollowed
deriving DecidableEq, Repr

/-- The test `if (!errors.isEmpty())` of the route, then the handler. -/
def dispatch (body : Body) : Dispatch :=
  if !body.errorsIsEmpty then .invalid
  else
    match body.toRequest? with
    | some req => .engine req
    | none => .unfollowed

/-- The route `router.post('/')` on a body as received: the 400 answer of
`if (!errors.isEmpty())` precedes `db.serialize`, so a body in error never
reaches the database; `none` stands for a run the embedding does not follow
(see `Dispatch.unfollowed`). -/
def routerPost (env : Env) (body : Body) (db : Db M) : Option (Db M × Option (Response M)) :=
  match dispatch body with
  | .invalid => some (db, some (.badRequest "Validation failed"))
  | .engine req => some (postSale env req db)
  | .unfollowed => none

/-! ## createSale under store failures -/

/-- Failures the store reports for a reason outside the schema (a busy or
full database, an I/O error), for the two statements of `createSale` that
run with no other statement of the request queued: the sale insert and the
summary upsert.  A failed statement writes nothing and leaves the earlier
writes of the open transaction in place.  Failures of the queued item
inserts and stock updates are not modelled. -/
structure Faults where
  insertSale : Bool
  updateDailySummary : Bool
deriving DecidableEq, Repr

/-- The function `createSale` when the store may fail.  The callback of the
sale insert tests `err`, issues ROLLBACK and answers 500.  The callback
handed to updateDailySummary is `() => { db.run('COMMIT'); ... }`: it takes
no `err` parameter, so after a failed upsert it commits, inserts the audit
row and answers 201 as after a successful one. -/
def createSaleWithFaults (faults : Faults) (env : Env) (req : SaleRequest) (db : Db M)
    (st : Loop M) : Db M × Option (Response M) :=
  match (if faults.insertSale then none
         else insertSale db env.receiptNumber env.user_id st.totalAmount req.payment_method
           req.customer_name req.customer_phone req.notes) with
  | none => (db, some (.serverError "Failed to create sale"))
  | some (db1, saleId) =>
    match st.saleItems with
    | [] => (db1, none)
    | _ :: _ =>
      let ordered := reorder env.itemOrder st.saleItems
      let db2 := ordered.foldl (insertSaleItem saleId) db1
      let db3 := ordered.foldl updateStock db2
      let db4 := (if faults.updateDailySummary then none
                  else updateDailySummary st.totalAmount req.payment_method env.today db3).getD db3
      let db5 := insertAuditLog db4 env.user_id "CREATE_SALE" "sales" saleId
      (db5, some (.created saleId env.receiptNumber st.totalAmount))

/-- The handler `router.post('/')` when the store may fail. -/
def postSaleWithFaults (faults : Faults) (env : Env) (req : SaleRequest) (db : Db M) :
    Db M × Option (Response M) :=
  if !validationResult req then (db, some (.badRequest "Validation failed"))
  else
    let st := req.items.foldl (onProduct db) Loop.init
    if st.processedItems = req.items.length then createSaleWithFaults faults env req db st
    else (db, st.response)

/-! ## Column names -/

/-- The payment columns of `CREATE TABLE daily_sales_summary`, in the order
of the schema. -/
def dailySummaryPaymentColumns : List String :=
  ["cash_sales", "card_sales", "debt_sales", "momo_sales", "airtel_money_sales"]

/-- The payment fields of the zero-filled object of the daily-summary read,
in the order of the object literal. -/
def emptySummaryPaymentFields : List String :=
  ["cash_sales", "card_sales", "debt_sales", "momo_sales", "airtel_money_sales"]

/-! ## Concrete states and requests -/

/-- A store holding the first sample product of `initializeDatabase` (price
1.50, stock 100) and a second product with a single unit in stock. -/
def sampleDb : Db Money :=
  { products := [{ id := 1, name := "Coca Cola 500ml", price := 150, stock := 100 },
                 { id := 2, name := "White Bread", price := 200, stock := 1 }],
    sales := [], sale_items := [], daily_sales_summary := [], audit_logs := [],
    sqlite_sequence := { sales := 0, sale_items := 0, daily_sales_summary := 0,
                         audit_logs := 0 } }

/-- A first call, by user 1 on 2025-01-01. -/
def sampleEnv : Env :=
  { user_id := 1, receiptNumber := "RCP-1700000000000-1", today := "2025-01-01",
    itemOrder := [] }

/-- A second call on the same date, with another receipt number; the store
runs the first item insert of the call after the second. -/
def sampleEnv2 : Env :=
  { user_id := 1, receiptNumber := "RCP-1700000000500-2", today := "2025-01-01",
    itemOrder := [1] }

/-- A request for `items`, paid with `payment_method`, without customer data. -/
def sampleRequest (items : List Item) (payment_method : String) : SaleRequest :=
  { items := items, payment_method := payment_method, customer_name := none,
    customer_phone := none, notes := none }

/-- The store `sampleDb` after the cash sale of three units of product 1. -/
def sampleDbAfterSale : Db Money :=
  { products := [{ id := 1, name := "Coca Cola 500ml", price := 150, stock := 97 },
                 { id := 2, name := "White Bread", price := 200, stock := 1 }],
    sales := [{ id := 1, receipt_number := "RCP-1700000000000-1", cashier_id := 1, total := 450,
                payment_method := "cash", customer_name := none, customer_phone := none,
                notes := none }],
    sale_items := [{ id := 1, sale_id := 1, product_id := 1, quantity := 3, unit_price := 150,
                     total_price := 450 }],
    daily_sales_summary := [{ id := 1, date := "2025-01-01", total_sales := 450,
                              cash_sales := 450, card_sales := 0, debt_sales := 0,
                              momo_sales := 0, airtel_money_sales := 0,
                              total_transactions := 1 }],
    audit_logs := [{ id := 1, user_id := 1, action := "CREATE_SALE", table_name := "sales",
                     record_id := 1 }],
    sqlite_sequence := { sales := 1, sale_items := 1, daily_sales_summary := 1,
                         audit_logs := 1 } }

/-! ## Auxiliary definitions used to state the properties -/

/-- The entry the validate-and-total loop pushes for a basket line, when the
line passes both checks of the callback. -/
def lineDraft (db : Db M) (item : Item) : Option (SaleItemDraft M) :=
  match getProduct db item.product_id with
  | none => none
  | some product =>
    if product.stock < item.quantity then none
    else some { product_id := product.id, quantity := item.quantity,
                unit_price := product.price, total_price := product.price * item.quantity }

/-- The entries pushed for a basket, in basket order. -/
def drafts (db : Db M) (items : List Item) : List (SaleItemDraft M) :=
  items.filterMap (lineDraft db)

/-- A basket line fails its callback: the product is unknown, or its stock is
below the requested quantity. -/
def lineFails (db : Db M) (item : Item) : Prop :=
  getProduct db item.product_id = none ∨
    ∃ product, getProduct db item.product_id = some product ∧ product.stock < item.quantity

/-- The message of the 400 response a failing line sends. -/
def failMessage (db : Db M) (item : Item) : String :=
  match getProduct db item.product_id with
  | none => notFoundMessage item.product_id
  | some product => insufficientStockMessage product item.quantity

/-- Total quantity a basket asks of one product, summed over all its lines. -/
def basketQuantity (product_id : Int) (items : List Item) : Int :=
  ((items.filter (fun item => item.product_id == product_id)).map (fun item => item.quantity)).sum

/-- Total quantity of one product in the baskets of the calls that succeed,
when the calls run one after the other from `db`. -/
def soldQuantity (product_id : Int) : List (Env × SaleRequest) → Db M → Int
  | [], _ => 0
  | call :: calls, db =>
    let r := postSale call.1 call.2 db
    (if Response.isCreated r.2 then basketQuantity product_id call.2.items else 0)
      + soldQuantity product_id calls r.1

/-- The database `createSale` commits once the sale row is in: the writes of\nits success path after the sale insert, for the entries `ds` of `saleItems`. -/
def committed (env : Env) (req : SaleRequest) (db1 : Db M) (saleId : Int)
    (ds : List (SaleItemDraft M)) (total : M) : Db M :=
  let ordered := reorder env.itemOrder ds
  let db3 := ordered.foldl updateStock (ordered.foldl (insertSaleItem saleId) db1)
  insertAuditLog ((updateDailySummary total req.payment_method env.today db3).getD db3)
    env.user_id "CREATE_SALE" "sales" saleId

/-- The value a sub-select of updateDailySummary reads for the date, behind
`COALESCE(..., 0)`. -/
def previous {α : Type} [Zero α] (db : Db M) (date : String) (column : DailySummary M → α) :
    α :=
  coalesce ((db.daily_sales_summary.find? (fun r => r.date == date)).map column) 0

/-- The zero-filled object of the daily-summary read. -/
def emptySummary (date : String) : SummaryView M :=
  { id := none, date := date, total_sales := 0, cash_sales := 0, card_sales := 0,
    debt_sales := 0, momo_sales := 0, airtel_money_sales := 0, total_transactions := 0 }


/-- The body of `db.serialize(() => ...)` in the handler, the transaction
engine: the validate-and-total loop, then `createSale` once every line has
been processed. -/
def saleTransaction (env : Env) (req : SaleRequest) (db : Db M) : Db M × Option (Response M) :=
  let st := req.items.foldl (onProduct db) Loop.init
  if st.processedItems = req.items.length then createSale env req db st
  else (db, st.response)

/-- The total of a 201 response; 0 for any other answer. -/
def Response.total : Option (Response M) → M
  | some (.created _ _ total) => total
  | _ => 0

/-- The responses of a sequence of calls run one after the other from `db`. -/
def postSalesResponses : List (Env × SaleRequest) → Db M → List (Option (Response M))
  | [], _ => []
  | call :: calls, db =>
    (postSale call.1 call.2 db).2 :: postSalesResponses calls (postSale call.1 call.2 db).1

/-- A body the claim about the validator chain lists: `items` is not an
array of at least one entry, or some entry has a quantity that is not an
integer of at least 1, or a product id that is not an integer, or the
payment method is not one of the accepted texts. -/
def Body.rejected (body : Body) : Prop :=
  (∀ entries, body.items = some entries → entries = []) ∨
  (∃ entries, body.items = some entries ∧
    ∃ item ∈ entries, ∀ n, item.quantity = .one (.int n) → n < 1) ∨
  (∃ entries, body.items = some entries ∧
    ∃ item ∈ entries, ∀ n, item.product_id ≠ .one (.int n)) ∨
  (∀ m ∈ validPaymentMethods, body.payment_method ≠ .one (.other m))

/-- No field of the body is an array: the payment method is a single text,
every product id and every quantity a single scalar. -/
def Body.scalars (body : Body) : Prop :=
  (∃ text, body.payment_method = .one (.other text)) ∧
  ∀ entries, body.items = some entries → ∀ item ∈ entries,
    (∃ value, item.product_id = .one value) ∧ ∃ value, item.quantity = .one value

/-- A body with a line whose quantity is the text `two`. -/
def sampleBadBody : Body :=
  { items := some [{ product_id := .one (.int 1), quantity := .one (.other "two") }],
    payment_method := .one (.other "cash"), customer_name := none, customer_phone := none,
    notes := none }

/-- A body of two well-formed lines paid by card. -/
def sampleBody : Body :=
  { items := some [{ product_id := .one (.int 1), quantity := .one (.int 2) },
                   { product_id := .one (.int 2), quantity := .one (.int 1) }],
    payment_method := .one (.other "card"), customer_name := none, customer_phone := none,
    notes := none }

/-- A body whose only line has the array `[3]` as quantity. -/
def sampleArrayQuantityBody : Body :=
  { items := some [{ product_id := .one (.int 1), quantity := .array [.int 3] }],
    payment_method := .one (.other "cash"), customer_name := none, customer_phone := none,
    notes := none }

/-- A body whose only line has the empty array as product id. -/
def sampleArrayProductBody : Body :=
  { items := some [{ product_id := .array [], quantity := .one (.int 1) }],
    payment_method := .one (.other "cash"), customer_name := none, customer_phone := none,
    notes := none }

/-! ## IEEE binary64 amounts -/

/-- A dyadic number `mant * 2 ^ exp`; in normal form `mant` is odd, or the
number is `0 * 2 ^ 0`. -/
structure Dyadic where
  mant : Int
  exp : Int
deriving DecidableEq, Repr

/-- Number of binary digits of `n` (the fuel `n` is never exhausted). -/
def bitLength : Nat → Nat → Nat
  | 0, _ => 0
  | fuel + 1, n => if n = 0 then 0 else bitLength fuel (n / 2) + 1

/-- Normal form of `mant * 2 ^ exp`, by moving factors 2 to the exponent. -/
def stripZeros : Nat → Int → Int → Dyadic
  | 0, mant, exp => { mant := mant, exp := exp }
  | fuel + 1, mant, exp =>
    if mant = 0 then { mant := 0, exp := 0 }
    else if mant % 2 = 0 then stripZeros fuel (mant / 2) (exp + 1)
    else { mant := mant, exp := exp }

/-- Normal form of a dyadic number. -/
def Dyadic.normalize (d : Dyadic) : Dyadic :=
  stripZeros d.mant.natAbs d.mant d.exp

/-- Exact sum of two dyadic numbers. -/
def Dyadic.add (a b : Dyadic) : Dyadic :=
  let exp := min a.exp b.exp
  Dyadic.normalize
    { mant := a.mant * 2 ^ (a.exp - exp).toNat + b.mant * 2 ^ (b.exp - exp).toNat, exp := exp }

/-- Exact product of two dyadic numbers. -/
def Dyadic.mul (a b : Dyadic) : Dyadic :=
  Dyadic.normalize { mant := a.mant * b.mant, exp := a.exp + b.exp }

/-- Rounding to 53 significant binary digits, to nearest, ties to even. -/
def round53 (d : Dyadic) : Dyadic :=
  let n := d.mant.natAbs
  let len := bitLength n n
  if len ≤ 53 then d.normalize
  else
    let shift := len - 53
    let q := n / 2 ^ shift
    let r := n % 2 ^ shift
    let half := 2 ^ (shift - 1)
    let q' := if half < r ∨ (r = half ∧ q % 2 = 1) then q + 1 else q
    Dyadic.normalize
      { mant := (if d.mant < 0 then -1 else 1) * (q' : Int), exp := d.exp + shift }

/-- A JavaScript number (an SQLite REAL) with a finite value, by that value.
The exponent range, the infinities, NaN and the sign of zero are not
represented: the arithmetic below is that of binary64 for operands and
results of magnitude between `2 ^ -1022` and `2 ^ 1024`. -/
structure Double where
  val : Dyadic
deriving DecidableEq, Repr

/-- The number `0`. -/
instance Double.instZero : Zero Double :=
  ⟨{ val := { mant := 0, exp := 0 } }⟩

/-- The operator `+` of JavaScript and SQLite on numbers: the exact sum,
rounded. -/
instance Double.instAdd : Add Double :=
  ⟨fun a b => { val := round53 (a.val.add b.val) }⟩

/-- The operator `*` of JavaScript on a number and an integer quantity: the
quantity as a number, then the exact product, rounded. -/
instance Double.instHMul : HMul Double Int Double :=
  ⟨fun a quantity =>
    { val := round53 (a.val.mul (round53 { mant := quantity, exp := 0 })) }⟩

/-- The number JavaScript prints as `0.1`: `3602879701896397 * 2 ^ -55`. -/
def Double.tenth : Double :=
  { val := { mant := 3602879701896397, exp := -55 } }

/-- The number JavaScript prints as `0.2`: `3602879701896397 * 2 ^ -54`. -/
def Double.fifth : Double :=
  { val := { mant := 3602879701896397, exp := -54 } }

/-- The number JavaScript prints as `0.30000000000000004`:
`5404319552844596 * 2 ^ -54`, in normal form. -/
def Double.threeTenthsUp : Double :=
  { val := { mant := 1351079888211149, exp := -52 } }

/-- The number JavaScript prints as `0.3`: `5404319552844595 * 2 ^ -54`. -/
def Double.threeTenths : Double :=
  { val := { mant := 5404319552844595, exp := -54 } }

/-- Exact sum of a list of numbers. -/
def exactSum (values : List Double) : Dyadic :=
  values.foldl (fun acc value => acc.add value.val) { mant := 0, exp := 0 }

/-- A store with a product priced 0.1 and a product priced 0.2. -/
def doubleDb : Db Double :=
  { products := [{ id := 1, name := "Sweet", price := Double.tenth, stock := 10 },
                 { id := 2, name := "Match box", price := Double.fifth, stock := 10 }],
    sales := [], sale_items := [], daily_sales_summary := [], audit_logs := [],
    sqlite_sequence := { sales := 0, sale_items := 0, daily_sales_summary := 0,
                         audit_logs := 0 } }

/-! ## The validate-and-total loop -/

@[simp]
theorem Loop.respond_totalAmount (st : Loop M) (r : Response M) :
    (st.respond r).totalAmount = st.totalAmount := by
  unfold Loop.respond; cases st.response <;> rfl

@[simp]
theorem Loop.respond_processedItems (st : Loop M) (r : Response M) :
    (st.respond r).processedItems = st.processedItems := by
  unfold Loop.respond; cases st.response <;> rfl

@[simp]
theorem Loop.respond_saleItems (st : Loop M) (r : Response M) :
    (st.respond r).saleItems = st.saleItems := by
  unfold Loop.respond; cases st.response <;> rfl

theorem onProduct_of_draft {db : Db M} {item : Item} {d : SaleItemDraft M} (st : Loop M)
    (h : lineDraft db item = some d) :
    onProduct db st item =
      { st with totalAmount := st.totalAmount + d.total_price,
                saleItems := st.saleItems ++ [d],
                processedItems := st.processedItems + 1 } := by
  unfold lineDraft at h
  unfold onProduct
  cases hp : getProduct db item.product_id with
  | none => simp [hp] at h
  | some product =>
    simp only [hp] at h ⊢
    by_cases hs : product.stock < item.quantity
    · simp [hs] at h
    · simp only [hs, if_false, Option.some.injEq] at h ⊢
      subst h
      rfl

theorem onProduct_of_no_draft {db : Db M} {item : Item} (st : Loop M)
    (h : lineDraft db item = none) :
    onProduct db st item = st.respond (.badRequest (failMessage db item)) := by
  unfold lineDraft at h
  unfold onProduct failMessage
  cases hp : getProduct db item.product_id with
  | none => rfl
  | some product =>
    simp only [hp] at h ⊢
    by_cases hs : product.stock < item.quantity
    · simp [hs]
    · simp [hs] at h

theorem lineDraft_eq_none_iff (db : Db M) (item : Item) :
    lineDraft db item = none ↔ lineFails db item := by
  unfold lineDraft lineFails
  cases hp : getProduct db item.product_id with
  | none => simp
  | some product =>
    by_cases hs : product.stock < item.quantity <;> simp [hs]

theorem foldl_onProduct_saleItems (db : Db M) (items : List Item) (st : Loop M) :
    (items.foldl (onProduct db) st).saleItems = st.saleItems ++ drafts db items := by
  induction items generalizing st with
  | nil => simp [drafts]
  | cons item items ih =>
    rw [List.foldl_cons, ih]
    cases h : lineDraft db item with
    | none => simp [onProduct_of_no_draft st h, drafts, List.filterMap_cons, h]
    | some d => simp [onProduct_of_draft st h, drafts, List.filterMap_cons, h]

theorem foldl_onProduct_totalAmount (db : Db M) (items : List Item) (st : Loop M) :
    (items.foldl (onProduct db) st).totalAmount
      = (drafts db items).foldl (fun acc d => acc + d.total_price) st.totalAmount := by
  induction items generalizing st with
  | nil => simp [drafts]
  | cons item items ih =>
    rw [List.foldl_cons, ih]
    cases h : lineDraft db item with
    | none => simp [onProduct_of_no_draft st h, drafts, List.filterMap_cons, h]
    | some d => simp [onProduct_of_draft st h, drafts, List.filterMap_cons, h]

theorem foldl_onProduct_processedItems (db : Db M) (items : List Item) (st : Loop M) :
    (items.foldl (onProduct db) st).processedItems
      = st.processedItems + (drafts db items).length := by
  induction items generalizing st with
  | nil => simp [drafts]
  | cons item items ih =>
    rw [List.foldl_cons, ih]
    cases h : lineDraft db item with
    | none => simp [onProduct_of_no_draft st h, drafts, List.filterMap_cons, h]
    | some d =>
      simp [onProduct_of_draft st h, drafts, List.filterMap_cons, h]
      omega

theorem drafts_length_le (db : Db M) (items : List Item) :
    (drafts db items).length ≤ items.length := by
  unfold drafts
  exact List.length_filterMap_le _ _

theorem drafts_length_eq_iff (db : Db M) (items : List Item) :
    (drafts db items).length = items.length ↔ ∀ item ∈ items, ¬ lineFails db item := by
  induction items with
  | nil => simp [drafts]
  | cons item items ih =>
    have hle := drafts_length_le db items
    cases h : lineDraft db item with
    | none =>
      have hf : lineFails db item := (lineDraft_eq_none_iff db item).1 h
      have : (drafts db (item :: items)).length = (drafts db items).length := by
        simp [drafts, List.filterMap_cons, h]
      rw [this]
      constructor
      · intro hlen
        simp only [List.length_cons] at hlen
        omega
      · intro hall
        exact absurd hf (hall item (List.mem_cons_self _ _))
    | some d =>
      have hnf : ¬ lineFails db item := by
        rw [← lineDraft_eq_none_iff, h]; simp
      have : (drafts db (item :: items)).length = (drafts db items).length + 1 := by
        simp [drafts, List.filterMap_cons, h]
      rw [this]
      simp only [List.length_cons, add_left_inj, ih, List.mem_cons, forall_eq_or_imp, hnf,
        not_false_eq_true, true_and]

theorem drafts_forall₂ (db : Db M) (items : List Item)
    (h : ∀ item ∈ items, ¬ lineFails db item) :
    List.Forall₂ (fun item d => lineDraft db item = some d) items (drafts db items) := by
  induction items with
  | nil => simp [drafts]
  | cons item items ih =>
    have hnf : ¬ lineFails db item := h item (List.mem_cons_self _ _)
    cases hd : lineDraft db item with
    | none => exact absurd ((lineDraft_eq_none_iff db item).1 hd) hnf
    | some d =>
      have : drafts db (item :: items) = d :: drafts db items := by
        simp [drafts, List.filterMap_cons, hd]
      rw [this]
      exact List.Forall₂.cons hd (ih (fun i hi => h i (List.mem_cons_of_mem _ hi)))

theorem foldl_onProduct_response_of_some (db : Db M) (items : List Item) (st : Loop M)
    (r : Response M) (h : st.response = some r) :
    (items.foldl (onProduct db) st).response = some r := by
  induction items generalizing st with
  | nil => simpa using h
  | cons item items ih =>
    rw [List.foldl_cons]
    apply ih
    cases hd : lineDraft db item with
    | none =>
      rw [onProduct_of_no_draft st hd]
      unfold Loop.respond
      simp [h]
    | some d =>
      rw [onProduct_of_draft st hd]
      exact h

theorem foldl_onProduct_response_of_fails (db : Db M) (items : List Item) (st : Loop M)
    (h : st.response = none) (hf : ∃ item ∈ items, lineFails db item) :
    ∃ item ∈ items, lineFails db item ∧
      (items.foldl (onProduct db) st).response = some (.badRequest (failMessage db item)) := by
  induction items generalizing st with
  | nil => simp at hf
  | cons item items ih =>
    rw [List.foldl_cons]
    cases hd : lineDraft db item with
    | none =>
      refine ⟨item, List.mem_cons_self _ _, (lineDraft_eq_none_iff db item).1 hd, ?_⟩
      apply foldl_onProduct_response_of_some
      rw [onProduct_of_no_draft st hd]
      unfold Loop.respond
      simp [h]
    | some d =>
      have hnf : ¬ lineFails db item := by
        rw [← lineDraft_eq_none_iff, hd]; simp
      obtain ⟨i, hi, hif⟩ := hf
      have hi2 : i ∈ items := by
        rcases List.mem_cons.1 hi with rfl | hmem
        · exact absurd hif hnf
        · exact hmem
      have hst : (onProduct db st item).response = none := by
        rw [onProduct_of_draft st hd]; exact h
      obtain ⟨j, hj, hjf, hres⟩ := ih (onProduct db st item) hst ⟨i, hi2, hif⟩
      exact ⟨j, List.mem_cons_of_mem _ hj, hjf, hres⟩


/-! ## Effect of the statements of createSale on each table -/

theorem le_foldl_max (ids : List Int) (a x : Int) (h : x ≤ a ∨ x ∈ ids) :
    x ≤ ids.foldl max a := by
  induction ids generalizing a with
  | nil =>
    rcases h with h | h
    · simpa using h
    · simp at h
  | cons i ids ih =>
    rw [List.foldl_cons]
    apply ih
    rcases h with h | h
    · exact Or.inl (le_trans h (le_max_left _ _))
    · rcases List.mem_cons.1 h with rfl | hmem
      · exact Or.inl (le_max_right _ _)
      · exact Or.inr hmem

theorem lt_nextRowid (seq : Int) (ids : List Int) (x : Int) (h : x ∈ ids) :
    x < nextRowid seq ids := by
  unfold nextRowid
  have h1 : x ≤ ids.foldl max 0 := le_foldl_max ids 0 x (Or.inr h)
  have h2 : ids.foldl max 0 ≤ max seq (ids.foldl max 0) := le_max_right _ _
  omega

theorem foldl_insertSaleItem_products (saleId : Int) (ds : List (SaleItemDraft M)) (db : Db M) :
    (ds.foldl (insertSaleItem saleId) db).products = db.products := by
  induction ds generalizing db with
  | nil => rfl
  | cons d ds ih => rw [List.foldl_cons, ih]; rfl

theorem foldl_insertSaleItem_sales (saleId : Int) (ds : List (SaleItemDraft M)) (db : Db M) :
    (ds.foldl (insertSaleItem saleId) db).sales = db.sales := by
  induction ds generalizing db with
  | nil => rfl
  | cons d ds ih => rw [List.foldl_cons, ih]; rfl

theorem foldl_insertSaleItem_daily (saleId : Int) (ds : List (SaleItemDraft M)) (db : Db M) :
    (ds.foldl (insertSaleItem saleId) db).daily_sales_summary = db.daily_sales_summary := by
  induction ds generalizing db with
  | nil => rfl
  | cons d ds ih => rw [List.foldl_cons, ih]; rfl

/-- The rows the item inserts of one sale add to `sale_items`, related line
by line to the entries of `saleItems`. -/
theorem foldl_insertSaleItem_sale_items (saleId : Int) (ds : List (SaleItemDraft M)) (db : Db M) :
    ∃ rows : List (SaleItem M),
      (ds.foldl (insertSaleItem saleId) db).sale_items = db.sale_items ++ rows ∧
      List.Forall₂ (fun (d : SaleItemDraft M) (row : SaleItem M) =>
        row.sale_id = saleId ∧ row.product_id = d.product_id ∧ row.quantity = d.quantity ∧
        row.unit_price = d.unit_price ∧ row.total_price = d.total_price) ds rows := by
  induction ds generalizing db with
  | nil => exact ⟨[], by simp, List.Forall₂.nil⟩
  | cons d ds ih =>
    obtain ⟨rows, hrows, hrel⟩ := ih (insertSaleItem saleId db d)
    refine ⟨{ id := nextRowid db.sqlite_sequence.sale_items (db.sale_items.map (fun i => i.id)),
              sale_id := saleId, product_id := d.product_id, quantity := d.quantity,
              unit_price := d.unit_price, total_price := d.total_price } :: rows, ?_,
            List.Forall₂.cons ⟨rfl, rfl, rfl, rfl, rfl⟩ hrel⟩
    rw [List.foldl_cons, hrows]
    simp [insertSaleItem]

theorem foldl_updateStock_sales (ds : List (SaleItemDraft M)) (db : Db M) :
    (ds.foldl updateStock db).sales = db.sales := by
  induction ds generalizing db with
  | nil => rfl
  | cons d ds ih => rw [List.foldl_cons, ih]; rfl

theorem foldl_updateStock_sale_items (ds : List (SaleItemDraft M)) (db : Db M) :
    (ds.foldl updateStock db).sale_items = db.sale_items := by
  induction ds generalizing db with
  | nil => rfl
  | cons d ds ih => rw [List.foldl_cons, ih]; rfl

theorem foldl_updateStock_daily (ds : List (SaleItemDraft M)) (db : Db M) :
    (ds.foldl updateStock db).daily_sales_summary = db.daily_sales_summary := by
  induction ds generalizing db with
  | nil => rfl
  | cons d ds ih => rw [List.foldl_cons, ih]; rfl

/-- Quantity the entries of `saleItems` take from one product. -/
theorem foldl_updateStock_products (ds : List (SaleItemDraft M)) (db : Db M) :
    (ds.foldl updateStock db).products = db.products.map (fun p =>
      { p with stock := p.stock -
          ((ds.filter (fun d => d.product_id == p.id)).map (fun d => d.quantity)).sum }) := by
  induction ds generalizing db with
  | nil => simp
  | cons d ds ih =>
    rw [List.foldl_cons, ih]
    simp only [updateStock, List.map_map]
    apply List.map_congr_left
    intro p _
    by_cases hp : p.id = d.product_id
    · simp [Function.comp, hp, List.filter_cons, sub_sub]
    · have hb : (d.product_id == p.id) = false := by
        simp only [beq_eq_false_iff_ne, ne_eq]
        exact fun h => hp h.symm
      simp [Function.comp, hp, List.filter_cons, hb]

theorem updateDailySummary_frame {amount : M} {paymentMethod today : String} {db db' : Db M}
    (h : updateDailySummary amount paymentMethod today db = some db') :
    db'.products = db.products ∧ db'.sales = db.sales ∧ db'.sale_items = db.sale_items ∧
      db'.audit_logs = db.audit_logs := by
  unfold updateDailySummary at h
  cases hc : PaymentColumn.ofName (paymentColumn paymentMethod) with
  | none => simp [hc] at h
  | some col =>
    simp only [hc, Option.some.injEq] at h
    subst h
    exact ⟨rfl, rfl, rfl, rfl⟩

theorem updateDailySummary_getD_frame (amount : M) (paymentMethod today : String) (db : Db M) :
    ((updateDailySummary amount paymentMethod today db).getD db).products = db.products ∧
    ((updateDailySummary amount paymentMethod today db).getD db).sales = db.sales ∧
    ((updateDailySummary amount paymentMethod today db).getD db).sale_items = db.sale_items := by
  cases h : updateDailySummary amount paymentMethod today db with
  | none => exact ⟨rfl, rfl, rfl⟩
  | some db' =>
    obtain ⟨h1, h2, h3, _⟩ := updateDailySummary_frame h
    exact ⟨h1, h2, h3⟩


/-! ## The three outcomes of router.post('/') -/

theorem foldl_onProduct_response_of_pass (db : Db M) (items : List Item) (st : Loop M)
    (h : ∀ item ∈ items, ¬ lineFails db item) :
    (items.foldl (onProduct db) st).response = st.response := by
  induction items generalizing st with
  | nil => rfl
  | cons item items ih =>
    rw [List.foldl_cons, ih _ (fun i hi => h i (List.mem_cons_of_mem _ hi))]
    cases hd : lineDraft db item with
    | none =>
      exact absurd ((lineDraft_eq_none_iff db item).1 hd) (h item (List.mem_cons_self _ _))
    | some d => rw [onProduct_of_draft st hd]

/-- The loop state when the last callback calls `createSale`. -/
theorem foldl_onProduct_of_pass (db : Db M) (items : List Item)
    (h : ∀ item ∈ items, ¬ lineFails db item) :
    items.foldl (onProduct db) Loop.init =
      { totalAmount := ((drafts db items).foldl (fun acc d => acc + d.total_price) 0),
        processedItems := items.length,
        saleItems := drafts db items,
        response := none } := by
  have h1 := foldl_onProduct_totalAmount db items Loop.init
  have h2 := foldl_onProduct_processedItems db items Loop.init
  have h3 := foldl_onProduct_saleItems db items Loop.init
  have h4 := foldl_onProduct_response_of_pass db items Loop.init h
  rw [(drafts_length_eq_iff db items).2 h] at h2
  cases hst : items.foldl (onProduct db) Loop.init with
  | mk t p s r =>
    rw [hst] at h1 h2 h3 h4
    simp only [Loop.init, zero_add, List.nil_append] at h1 h2 h3 h4
    try simp only [Loop.init] at h1
    simp only [h1, h2, h3, h4]

theorem postSale_of_invalid {env : Env} {req : SaleRequest} {db : Db M}
    (h : validationResult req = false) :
    postSale env req db = (db, some (.badRequest "Validation failed")) := by
  simp [postSale, h]

theorem postSale_of_fails {env : Env} {req : SaleRequest} {db : Db M}
    (hv : validationResult req = true) (hf : ∃ item ∈ req.items, lineFails db item) :
    postSale env req db = (db, (req.items.foldl (onProduct db) Loop.init).response) := by
  have hne : (req.items.foldl (onProduct db) Loop.init).processedItems ≠ req.items.length := by
    rw [foldl_onProduct_processedItems]
    intro heq
    simp only [Loop.init, zero_add] at heq
    obtain ⟨item, hi, hfail⟩ := hf
    exact (drafts_length_eq_iff db req.items).1 heq item hi hfail
  simp [postSale, hv, hne]

theorem postSale_of_pass {env : Env} {req : SaleRequest} {db : Db M}
    (hv : validationResult req = true) (hp : ∀ item ∈ req.items, ¬ lineFails db item) :
    postSale env req db = createSale env req db
      { totalAmount := ((drafts db req.items).foldl (fun acc d => acc + d.total_price) 0),
        processedItems := req.items.length,
        saleItems := drafts db req.items,
        response := none } := by
  simp [postSale, hv, foldl_onProduct_of_pass db req.items hp]

theorem items_ne_nil_of_valid {req : SaleRequest} (hv : validationResult req = true) :
    req.items ≠ [] := by
  intro h
  simp [validationResult, h] at hv

theorem drafts_ne_nil {req : SaleRequest} {db : Db M} (hv : validationResult req = true)
    (hp : ∀ item ∈ req.items, ¬ lineFails db item) : drafts db req.items ≠ [] := by
  intro h
  have hlen := (drafts_length_eq_iff db req.items).2 hp
  rw [h] at hlen
  exact items_ne_nil_of_valid hv (List.length_eq_zero.1 hlen.symm)

/-- Shape of a successful call: the request passed validation, every line
passed its checks, the sale row went in, and the committed database follows. -/
theorem postSale_created {env : Env} {req : SaleRequest} {db db' : Db M} {id : Int}
    {rn : String} {total : M}
    (h : postSale env req db = (db', some (.created id rn total))) :
    validationResult req = true ∧ (∀ item ∈ req.items, ¬ lineFails db item) ∧
      rn = env.receiptNumber ∧
      total = ((drafts db req.items).foldl (fun acc d => acc + d.total_price) 0) ∧
      ∃ db1, insertSale db env.receiptNumber env.user_id total req.payment_method
          req.customer_name req.customer_phone req.notes = some (db1, id) ∧
        db' = committed env req db1 id (drafts db req.items) total := by
  cases hv : validationResult req with
  | false => rw [postSale_of_invalid hv] at h; simp at h
  | true =>
    by_cases hf : ∃ item ∈ req.items, lineFails db item
    · exfalso
      rw [postSale_of_fails hv hf] at h
      obtain ⟨item, _, _, hres⟩ :=
        foldl_onProduct_response_of_fails db req.items Loop.init rfl hf
      rw [hres] at h
      simp at h
    · have hp : ∀ item ∈ req.items, ¬ lineFails db item := by
        intro item hi hfail
        exact hf ⟨item, hi, hfail⟩
      refine ⟨rfl, hp, ?_⟩
      rw [postSale_of_pass hv hp] at h
      unfold createSale at h
      simp only at h
      cases hins : insertSale db env.receiptNumber env.user_id
          ((drafts db req.items).foldl (fun acc d => acc + d.total_price) 0) req.payment_method
          req.customer_name req.customer_phone req.notes with
      | none => rw [hins] at h; simp at h
      | some res =>
        obtain ⟨db1, saleId⟩ := res
        rw [hins] at h
        cases hds : drafts db req.items with
        | nil => exact absurd hds (drafts_ne_nil hv hp)
        | cons d ds =>
          rw [hds] at h hins
          simp only [Prod.mk.injEq, Option.some.injEq, Response.created.injEq] at h
          obtain ⟨hdb, hid, hrn, htot⟩ := h
          subst hid
          refine ⟨hrn.symm, htot.symm, db1, ?_, ?_⟩
          · rw [← htot]; exact hins
          · rw [← hdb, ← htot]; rfl

/-- A call that does not answer 201 leaves the database as it found it. -/
theorem postSale_not_created {env : Env} {req : SaleRequest} {db : Db M}
    (h : Response.isCreated (postSale env req db).2 = false) :
    (postSale env req db).1 = db := by
  cases hv : validationResult req with
  | false => rw [postSale_of_invalid hv]
  | true =>
    by_cases hf : ∃ item ∈ req.items, lineFails db item
    · rw [postSale_of_fails hv hf]
    · have hp : ∀ item ∈ req.items, ¬ lineFails db item := by
        intro item hi hfail
        exact hf ⟨item, hi, hfail⟩
      rw [postSale_of_pass hv hp] at h ⊢
      unfold createSale at h ⊢
      simp only at h ⊢
      cases hins : insertSale db env.receiptNumber env.user_id
          ((drafts db req.items).foldl (fun acc d => acc + d.total_price) 0) req.payment_method
          req.customer_name req.customer_phone req.notes with
      | none => rfl
      | some res =>
        obtain ⟨db1, saleId⟩ := res
        rw [hins] at h
        cases hds : drafts db req.items with
        | nil => exact absurd hds (drafts_ne_nil hv hp)
        | cons d ds =>
          rw [hds] at h
          simp [Response.isCreated] at h


/-! ## The committed database, table by table -/

theorem insertSale_some {db db1 : Db M} {rn pm : String} {cashier id : Int} {total : M}
    {cn cp notes : Option String}
    (h : insertSale db rn cashier total pm cn cp notes = some (db1, id)) :
    id = nextRowid db.sqlite_sequence.sales (db.sales.map (fun s => s.id)) ∧
      db1.sales = db.sales ++
        [{ id := id, receipt_number := rn, cashier_id := cashier, total := total,
           payment_method := pm, customer_name := cn, customer_phone := cp, notes := notes }] ∧
      db1.products = db.products ∧ db1.sale_items = db.sale_items ∧
      db1.daily_sales_summary = db.daily_sales_summary ∧ db1.audit_logs = db.audit_logs := by
  unfold insertSale at h
  split at h
  · simp at h
  · split at h
    · simp at h
    · simp only [Option.some.injEq, Prod.mk.injEq] at h
      obtain ⟨hdb, hid⟩ := h
      subst hid
      subst hdb
      exact ⟨rfl, rfl, rfl, rfl, rfl, rfl⟩

theorem committed_sales (env : Env) (req : SaleRequest) (db1 : Db M) (saleId : Int)
    (ds : List (SaleItemDraft M)) (total : M) :
    (committed env req db1 saleId ds total).sales = db1.sales := by
  unfold committed
  simp only [insertAuditLog]
  rw [(updateDailySummary_getD_frame _ _ _ _).2.1, foldl_updateStock_sales,
    foldl_insertSaleItem_sales]

/-- Whatever the schedule, the store runs the queued statements once each. -/
theorem reorder_perm {α : Type} (schedule : List Nat) (queue : List α) :
    List.Perm (reorder schedule queue) queue := by
  induction queue generalizing schedule with
  | nil => cases schedule <;> exact List.Perm.refl _
  | cons x xs ih =>
    cases schedule with
    | nil => exact List.Perm.refl _
    | cons k ks =>
      exact (List.perm_insertIdx x (reorder ks xs) (Nat.min_le_right _ _)).trans
        ((ih ks).cons x)

theorem insertIdx_length_append {α : Type} (x : α) (front back : List α) :
    (front ++ back).insertIdx front.length x = front ++ x :: back := by
  induction front with
  | nil => rfl
  | cons y ys ih => simp [List.insertIdx_succ_cons, ih]

/-- Every order of the queue is the order of some schedule. -/
theorem exists_schedule_of_perm {α : Type} {queue order : List α}
    (h : List.Perm order queue) : ∃ schedule, reorder schedule queue = order := by
  induction queue generalizing order with
  | nil => exact ⟨[], by rw [List.Perm.eq_nil h]; rfl⟩
  | cons x xs ih =>
    have hx : x ∈ order := h.symm.subset (List.mem_cons_self _ _)
    obtain ⟨front, back, rfl⟩ := List.append_of_mem hx
    have hrest : List.Perm (front ++ back) xs :=
      (List.perm_cons x).1 (List.perm_middle.symm.trans h)
    obtain ⟨ks, hks⟩ := ih hrest
    refine ⟨front.length :: ks, ?_⟩
    simp only [reorder, hks]
    rw [Nat.min_eq_left (by simp), insertIdx_length_append]

theorem committed_sale_items (env : Env) (req : SaleRequest) (db1 : Db M) (saleId : Int)
    (ds : List (SaleItemDraft M)) (total : M) :
    (committed env req db1 saleId ds total).sale_items
      = ((reorder env.itemOrder ds).foldl (insertSaleItem saleId) db1).sale_items := by
  unfold committed
  simp only [insertAuditLog]
  rw [(updateDailySummary_getD_frame _ _ _ _).2.2, foldl_updateStock_sale_items]

theorem committed_products (env : Env) (req : SaleRequest) (db1 : Db M) (saleId : Int)
    (ds : List (SaleItemDraft M)) (total : M) :
    (committed env req db1 saleId ds total).products = db1.products.map (fun p =>
      { p with stock := p.stock -
          ((ds.filter (fun d => d.product_id == p.id)).map (fun d => d.quantity)).sum }) := by
  unfold committed
  simp only [insertAuditLog]
  rw [(updateDailySummary_getD_frame _ _ _ _).1, foldl_updateStock_products,
    foldl_insertSaleItem_products]
  apply List.map_congr_left
  intro p _
  rw [(((reorder_perm env.itemOrder ds).filter _).map _).sum_eq]

theorem forall₂_total_price_sum {saleId : Int} {ds : List (SaleItemDraft M)} {rows : List (SaleItem M)}
    (h : List.Forall₂ (fun (d : SaleItemDraft M) (row : SaleItem M) =>
        row.sale_id = saleId ∧ row.product_id = d.product_id ∧ row.quantity = d.quantity ∧
        row.unit_price = d.unit_price ∧ row.total_price = d.total_price) ds rows) :
    ∀ start : M, rows.foldl (fun acc row => acc + row.total_price) start
      = ds.foldl (fun acc d => acc + d.total_price) start := by
  induction h with
  | nil => intro start; rfl
  | cons hd _ ih =>
    intro start
    rw [List.foldl_cons, List.foldl_cons, hd.2.2.2.2, ih]

theorem forall₂_filter_sale_id {saleId : Int} {ds : List (SaleItemDraft M)} {rows : List (SaleItem M)}
    (h : List.Forall₂ (fun (d : SaleItemDraft M) (row : SaleItem M) =>
        row.sale_id = saleId ∧ row.product_id = d.product_id ∧ row.quantity = d.quantity ∧
        row.unit_price = d.unit_price ∧ row.total_price = d.total_price) ds rows) :
    rows.filter (fun row => row.sale_id == saleId) = rows := by
  induction h with
  | nil => rfl
  | cons hd _ ih => simp [List.filter_cons, hd.1, ih]

theorem lineDraft_some {db : Db M} {item : Item} {d : SaleItemDraft M}
    (h : lineDraft db item = some d) :
    ∃ product, getProduct db item.product_id = some product ∧ item.quantity ≤ product.stock ∧
      d.product_id = item.product_id ∧ d.quantity = item.quantity ∧
      d.unit_price = product.price ∧ d.total_price = product.price * item.quantity := by
  unfold lineDraft at h
  cases hp : getProduct db item.product_id with
  | none => simp [hp] at h
  | some product =>
    simp only [hp] at h
    by_cases hs : product.stock < item.quantity
    · simp [hs] at h
    · simp only [hs, if_false, Option.some.injEq] at h
      subst h
      have hid : product.id = item.product_id := by
        have := List.find?_some hp
        simpa using this
      exact ⟨product, rfl, not_lt.1 hs, hid, rfl, rfl, rfl⟩


/-! ## Sale creation: totals, line items, failing lines -/

theorem forall₂_comp {α β γ : Type} {R : α → β → Prop} {S : β → γ → Prop} {T : α → γ → Prop}
    (hT : ∀ a b c, R a b → S b c → T a c) {as : List α} {bs : List β} {cs : List γ}
    (h1 : List.Forall₂ R as bs) (h2 : List.Forall₂ S bs cs) : List.Forall₂ T as cs := by
  induction h1 generalizing cs with
  | nil => cases h2; exact List.Forall₂.nil
  | cons hab _ ih =>
    cases h2 with
    | cons hbc htl => exact List.Forall₂.cons (hT _ _ _ hab hbc) (ih htl)

/-- The rows a call answered 201 adds to `sale_items`: up to the order in
which the store ran the inserts, one row for each entry of `saleItems`, all
of them referencing the new sale. -/
theorem postSale_created_rows {env : Env} {req : SaleRequest} {db db' : Db M} {id : Int}
    {rn : String} {total : M}
    (h : postSale env req db = (db', some (.created id rn total))) :
    ∃ rows lines, db'.sale_items = db.sale_items ++ rows ∧ List.Perm lines rows ∧
      rows.filter (fun row => row.sale_id == id) = rows ∧
      List.Forall₂ (fun (d : SaleItemDraft M) (row : SaleItem M) =>
        row.sale_id = id ∧ row.product_id = d.product_id ∧ row.quantity = d.quantity ∧
        row.unit_price = d.unit_price ∧ row.total_price = d.total_price)
        (drafts db req.items) lines := by
  obtain ⟨_, _, _, _, db1, hins, hdb⟩ := postSale_created h
  obtain ⟨_, _, _, hitems, _, _⟩ := insertSale_some hins
  obtain ⟨rows, hrows, hrel⟩ :=
    foldl_insertSaleItem_sale_items id (reorder env.itemOrder (drafts db req.items)) db1
  obtain ⟨lines, hlines, hperm⟩ :=
    List.perm_comp_forall₂ (reorder_perm env.itemOrder (drafts db req.items)).symm hrel
  refine ⟨rows, lines, ?_, hperm, forall₂_filter_sale_id hrel, hlines⟩
  rw [hdb, committed_sale_items, hrows, hitems]

/-- C1 as stated fails on the numbers of the code: with IEEE doubles, the
basket of one unit of a product priced 0.1 and one unit of a product priced
0.2 is answered 201 with total 0.30000000000000004, which is also the total
of the new sale row, while the line totals stored for the sale are 0.1 and
0.2, whose exact sum is a different number. -/
theorem double_total_differs_from_exact_sum :
    (postSale sampleEnv (sampleRequest [⟨1, 1⟩, ⟨2, 1⟩] "cash") doubleDb).2
      = some (.created 1 "RCP-1700000000000-1" Double.threeTenthsUp) ∧
    (postSale sampleEnv (sampleRequest [⟨1, 1⟩, ⟨2, 1⟩] "cash") doubleDb).1.sales.map
      (fun s => (s.id, s.total)) = [(1, Double.threeTenthsUp)] ∧
    ((postSale sampleEnv (sampleRequest [⟨1, 1⟩, ⟨2, 1⟩] "cash") doubleDb).1.sale_items.filter
      (fun it => it.sale_id == 1)).map (fun it => it.total_price)
      = [Double.tenth, Double.fifth] ∧
    exactSum (((postSale sampleEnv (sampleRequest [⟨1, 1⟩, ⟨2, 1⟩] "cash")
        doubleDb).1.sale_items.filter (fun it => it.sale_id == 1)).map
          (fun it => it.total_price))
      = { mant := 10808639105689191, exp := -55 } ∧
    exactSum (((postSale sampleEnv (sampleRequest [⟨1, 1⟩, ⟨2, 1⟩] "cash")
        doubleDb).1.sale_items.filter (fun it => it.sale_id == 1)).map
          (fun it => it.total_price))
      ≠ Double.threeTenthsUp.val ∧
    Double.threeTenthsUp ≠ Double.threeTenths := by
  decide

/-- C1, amended: when `POST /` answers 201, the new row of `sales` carries
the sale id and the total of the response, and that total is what the
route's own additions give when the line totals stored for the sale (the
`total_price` of the rows of `sale_items` that reference it, each the
`unit_price` times the quantity of its basket line) are added to 0 one after
the other in basket order.  This holds for every arithmetic of amounts, so
for IEEE doubles as for exact amounts; the store is assumed to respect the
foreign key of `sale_items.sale_id`. -/
theorem sale_total_eq_fold_of_line_totals (env : Env) (req : SaleRequest) (db db' : Db M)
    (id : Int) (rn : String) (total : M)
    (hfk : ∀ it ∈ db.sale_items, ∃ s ∈ db.sales, s.id = it.sale_id)
    (h : postSale env req db = (db', some (.created id rn total))) :
    (∃ sale, db'.sales = db.sales ++ [sale] ∧ sale.id = id ∧ sale.total = total) ∧
      ∃ lines : List (SaleItem M),
        List.Perm lines (db'.sale_items.filter (fun it => it.sale_id == id)) ∧
        List.Forall₂ (fun (item : Item) (row : SaleItem M) =>
          row.product_id = item.product_id ∧ row.quantity = item.quantity ∧
          row.total_price = row.unit_price * row.quantity) req.items lines ∧
        total = lines.foldl (fun acc row => acc + row.total_price) 0 := by
  obtain ⟨_, hp, _, htot, db1, hins, hdb⟩ := postSale_created h
  obtain ⟨hid, hsales, _, _, _, _⟩ := insertSale_some hins
  obtain ⟨rows, lines, hrows, hperm, hfilter, hlines⟩ := postSale_created_rows h
  constructor
  · rw [hdb, committed_sales]
    exact ⟨_, hsales, rfl, rfl⟩
  · have hold : db.sale_items.filter (fun it => it.sale_id == id) = [] := by
      rw [List.filter_eq_nil_iff]
      intro it hit
      obtain ⟨s, hs, hsid⟩ := hfk it hit
      have hlt : s.id < id := by
        rw [hid]
        exact lt_nextRowid _ _ _ (List.mem_map_of_mem (fun s => s.id) hs)
      have hne : it.sale_id ≠ id := by omega
      simpa using hne
    refine ⟨lines, ?_, ?_, ?_⟩
    · rw [hrows, List.filter_append, hold, List.nil_append, hfilter]
      exact hperm
    · refine forall₂_comp ?_ (drafts_forall₂ db req.items hp) hlines
      intro item d row hd hrow
      obtain ⟨product, _, _, hpid, hq, hup, htp⟩ := lineDraft_some hd
      obtain ⟨_, h2, h3, h4, h5⟩ := hrow
      refine ⟨h2.trans hpid, h3.trans hq, ?_⟩
      rw [h5, htp, h4, hup, h3, hq]
    · rw [htot, forall₂_total_price_sum hlines 0]

/-- C1, amended, at a concrete input: a second sale, of two lines whose
inserts the store runs in reverse order, on a store that already holds a
sale with its line item. -/
theorem sale_total_eq_fold_of_line_totals_witness :
    (∀ it ∈ sampleDbAfterSale.sale_items, ∃ s ∈ sampleDbAfterSale.sales, s.id = it.sale_id) ∧
    (postSale sampleEnv2 (sampleRequest [⟨1, 2⟩, ⟨2, 1⟩] "card") sampleDbAfterSale).2
      = some (.created 2 "RCP-1700000000500-2" 500) ∧
    (postSale sampleEnv2 (sampleRequest [⟨1, 2⟩, ⟨2, 1⟩] "card")
        sampleDbAfterSale).1.sale_items.map (fun it => (it.sale_id, it.product_id, it.total_price))
      = [(1, 1, 450), (2, 2, 200), (2, 1, 300)] ∧
    ((∃ sale, (postSale sampleEnv2 (sampleRequest [⟨1, 2⟩, ⟨2, 1⟩] "card")
          sampleDbAfterSale).1.sales = sampleDbAfterSale.sales ++ [sale] ∧
        sale.id = 2 ∧ sale.total = 500) ∧
      ∃ lines : List (SaleItem Money),
        List.Perm lines ((postSale sampleEnv2 (sampleRequest [⟨1, 2⟩, ⟨2, 1⟩] "card")
          sampleDbAfterSale).1.sale_items.filter (fun it => it.sale_id == 2)) ∧
        List.Forall₂ (fun (item : Item) (row : SaleItem Money) =>
          row.product_id = item.product_id ∧ row.quantity = item.quantity ∧
          row.total_price = row.unit_price * row.quantity)
          (sampleRequest [⟨1, 2⟩, ⟨2, 1⟩] "card").items lines ∧
        (500 : Money) = lines.foldl (fun acc row => acc + row.total_price) 0) :=
  ⟨by decide, by decide, by decide,
    sale_total_eq_fold_of_line_totals sampleEnv2 (sampleRequest [⟨1, 2⟩, ⟨2, 1⟩] "card")
      sampleDbAfterSale _ 2 "RCP-1700000000500-2" 500 (by decide)
      (Prod.ext rfl (by decide))⟩

/-- C2: when some line of the basket names a product that does not exist or
asks for more than the product has in stock, `POST /` answers 400 and the
database after the call is the database before it, wherever the failing line
stands; for a request that passed validation the message is the one of a
failing line (product not found, or insufficient stock). -/
theorem failing_line_aborts_without_change (env : Env) (req : SaleRequest) (db : Db M)
    (h : ∃ item ∈ req.items, lineFails db item) :
    (postSale env req db).1 = db ∧
      ∃ message, (postSale env req db).2 = some (.badRequest message) ∧
        (validationResult req = true →
          ∃ item ∈ req.items, lineFails db item ∧ message = failMessage db item) := by
  cases hv : validationResult req with
  | false =>
    rw [postSale_of_invalid hv]
    exact ⟨rfl, _, rfl, fun hc => by simp at hc⟩
  | true =>
    rw [postSale_of_fails hv h]
    obtain ⟨item, hi, hfail, hres⟩ :=
      foldl_onProduct_response_of_fails db req.items Loop.init rfl h
    exact ⟨rfl, _, hres, fun _ => ⟨item, hi, hfail, rfl⟩⟩

/-- C2, at a concrete input: the failing line (unknown product 7) stands
last, after a line that passes. -/
theorem failing_line_aborts_without_change_witness :
    (∃ item ∈ (sampleRequest [⟨1, 2⟩, ⟨7, 1⟩] "cash").items, lineFails sampleDbAfterSale item) ∧
    ((postSale sampleEnv2 (sampleRequest [⟨1, 2⟩, ⟨7, 1⟩] "cash") sampleDbAfterSale).1
        = sampleDbAfterSale ∧
      ∃ message, (postSale sampleEnv2 (sampleRequest [⟨1, 2⟩, ⟨7, 1⟩] "cash")
          sampleDbAfterSale).2 = some (.badRequest message) ∧
        (validationResult (sampleRequest [⟨1, 2⟩, ⟨7, 1⟩] "cash") = true →
          ∃ item ∈ (sampleRequest [⟨1, 2⟩, ⟨7, 1⟩] "cash").items,
            lineFails sampleDbAfterSale item ∧ message = failMessage sampleDbAfterSale item)) :=
  ⟨⟨⟨7, 1⟩, by decide, Or.inl (by decide)⟩,
    failing_line_aborts_without_change sampleEnv2 (sampleRequest [⟨1, 2⟩, ⟨7, 1⟩] "cash")
      sampleDbAfterSale ⟨⟨7, 1⟩, by decide, Or.inl (by decide)⟩⟩

/-- C10: when `POST /` answers 201 with sale id `id`, the rows it adds to
`sale_items` are, up to the order in which the store ran the inserts, one
row for each basket line (lines of the same product are not merged): the row
of a line references `id`, has the product id and the quantity of the line,
the price the call read for that product as `unit_price`, and
`total_price = unit_price * quantity`. -/
theorem line_items_match_basket (env : Env) (req : SaleRequest) (db db' : Db M)
    (id : Int) (rn : String) (total : M)
    (h : postSale env req db = (db', some (.created id rn total))) :
    ∃ rows lines, db'.sale_items = db.sale_items ++ rows ∧ List.Perm lines rows ∧
      List.Forall₂ (fun (item : Item) (row : SaleItem M) =>
        row.sale_id = id ∧ row.product_id = item.product_id ∧ row.quantity = item.quantity ∧
        (∃ product, getProduct db item.product_id = some product ∧
          row.unit_price = product.price) ∧
        row.total_price = row.unit_price * row.quantity) req.items lines := by
  obtain ⟨_, hp, _, _, _, _, _⟩ := postSale_created h
  obtain ⟨rows, lines, hrows, hperm, _, hlines⟩ := postSale_created_rows h
  refine ⟨rows, lines, hrows, hperm, forall₂_comp ?_ (drafts_forall₂ db req.items hp) hlines⟩
  intro item d row hd hrow
  obtain ⟨product, hprod, _, hpid, hq, hup, htp⟩ := lineDraft_some hd
  obtain ⟨h1, h2, h3, h4, h5⟩ := hrow
  refine ⟨h1, h2.trans hpid, h3.trans hq, ⟨product, hprod, h4.trans hup⟩, ?_⟩
  rw [h5, htp, h4, hup, h3, hq]

/-- C10, at a concrete input: a basket with two lines of the same product,
whose inserts the store runs in reverse order. -/
theorem line_items_match_basket_witness :
    postSale sampleEnv2 (sampleRequest [⟨1, 2⟩, ⟨1, 3⟩] "momo") sampleDb
      = ((postSale sampleEnv2 (sampleRequest [⟨1, 2⟩, ⟨1, 3⟩] "momo") sampleDb).1,
          some (.created 1 "RCP-1700000000500-2" 750)) ∧
    (postSale sampleEnv2 (sampleRequest [⟨1, 2⟩, ⟨1, 3⟩] "momo") sampleDb).1.sale_items.map
      (fun it => (it.product_id, it.quantity)) = [(1, 3), (1, 2)] ∧
    ∃ rows lines,
      (postSale sampleEnv2 (sampleRequest [⟨1, 2⟩, ⟨1, 3⟩] "momo") sampleDb).1.sale_items
        = sampleDb.sale_items ++ rows ∧ List.Perm lines rows ∧
      List.Forall₂ (fun (item : Item) (row : SaleItem Money) =>
        row.sale_id = 1 ∧ row.product_id = item.product_id ∧ row.quantity = item.quantity ∧
        (∃ product, getProduct sampleDb item.product_id = some product ∧
          row.unit_price = product.price) ∧
        row.total_price = row.unit_price * row.quantity)
        (sampleRequest [⟨1, 2⟩, ⟨1, 3⟩] "momo").items lines :=
  ⟨Prod.ext rfl (by decide), by decide,
    line_items_match_basket sampleEnv2 (sampleRequest [⟨1, 2⟩, ⟨1, 3⟩] "momo") sampleDb _ 1
      "RCP-1700000000500-2" 750 (Prod.ext rfl (by decide))⟩

/-! ## Stock after a sequence of calls -/

theorem forall₂_quantity_sum (db : Db M) (product_id : Int) {items : List Item}
    {ds : List (SaleItemDraft M)}
    (h : List.Forall₂ (fun item d => lineDraft db item = some d) items ds) :
    ((ds.filter (fun d => d.product_id == product_id)).map (fun d => d.quantity)).sum
      = basketQuantity product_id items := by
  unfold basketQuantity
  induction h with
  | nil => rfl
  | cons hd _ ih =>
    obtain ⟨_, _, _, hpid, hq, _, _⟩ := lineDraft_some hd
    simp only [List.filter_cons, hpid]
    split
    · simp only [List.map_cons, List.sum_cons, ih, hq]
    · exact ih

/-- The stock column after one call: a 201 takes the quantity of every line
of the basket from the product of that line, any other answer takes nothing. -/
theorem postSale_products (env : Env) (req : SaleRequest) (db : Db M) :
    (postSale env req db).1.products = db.products.map (fun p =>
      { p with stock := p.stock -
          (if Response.isCreated (postSale env req db).2 then basketQuantity p.id req.items
           else 0) }) := by
  cases hc : Response.isCreated (postSale env req db).2 with
  | false =>
    rw [postSale_not_created hc]
    simp
  | true =>
    cases hr : postSale env req db with
    | mk db' r =>
      rw [hr] at hc
      cases r with
      | none => simp [Response.isCreated] at hc
      | some resp =>
        cases resp with
        | badRequest m => simp [Response.isCreated] at hc
        | serverError m => simp [Response.isCreated] at hc
        | created id rn total =>
          obtain ⟨_, hp, _, _, db1, hins, hdb⟩ := postSale_created hr
          obtain ⟨_, _, hprod, _, _, _⟩ := insertSale_some hins
          simp only [if_true]
          rw [hdb, committed_products, hprod]
          apply List.map_congr_left
          intro p _
          rw [forall₂_quantity_sum db p.id (drafts_forall₂ db req.items hp)]

/-- C5: after any sequence of calls of `POST /`, every product row has its
initial stock minus the sum of the quantities of all basket lines for that
product in the calls that answered 201 (so a product in no such basket keeps
its stock); with price 1.50 and stock 100, the basket of three units leaves
stock 97. -/
theorem stock_eq_initial_minus_sold :
    (∀ (calls : List (Env × SaleRequest)) (db : Db M),
      (postSales calls db).products = db.products.map (fun p =>
        { p with stock := p.stock - soldQuantity p.id calls db })) ∧
    (postSale sampleEnv (sampleRequest [⟨1, 3⟩] "cash") sampleDb).2
      = some (.created 1 "RCP-1700000000000-1" 450) ∧
    ((postSale sampleEnv (sampleRequest [⟨1, 3⟩] "cash") sampleDb).1.products.map
      (fun p => (p.id, p.price, p.stock))) = [(1, 150, 97), (2, 200, 1)] := by
  refine ⟨?_, by decide, by decide⟩
  intro calls
  induction calls with
  | nil =>
    intro db
    simp [postSales, soldQuantity]
  | cons call calls ih =>
    intro db
    have hstep : postSales (call :: calls) db = postSales calls (postSale call.1 call.2 db).1 := by
      simp [postSales]
    rw [hstep, ih, postSale_products, List.map_map]
    apply List.map_congr_left
    intro p _
    simp only [Function.comp, soldQuantity, sub_sub]


/-! ## The daily summary -/

theorem ofName_paymentColumn_of_valid {paymentMethod : String}
    (h : paymentMethod ∈ validPaymentMethods) :
    ∃ col, PaymentColumn.ofName (paymentColumn paymentMethod) = some col := by
  simp only [validPaymentMethods, List.mem_cons, List.mem_singleton, List.not_mem_nil,
    or_false] at h
  rcases h with rfl | rfl | rfl | rfl | rfl
  · exact ⟨.cash_sales, by decide⟩
  · exact ⟨.card_sales, by decide⟩
  · exact ⟨.debt_sales, by decide⟩
  · exact ⟨.momo_sales, by decide⟩
  · exact ⟨.airtel_money_sales, by decide⟩

theorem DailySummary.get_set (r : DailySummary M) (c : PaymentColumn) (v : M) :
    (r.set c v).get c = v := by
  cases c <;> rfl

theorem DailySummary.get_set_of_ne (r : DailySummary M) {c c' : PaymentColumn} (v : M)
    (h : c' ≠ c) : (r.set c v).get c' = r.get c' := by
  cases c <;> cases c' <;> first | rfl | exact absurd rfl h

theorem DailySummary.set_total_sales (r : DailySummary M) (c : PaymentColumn) (v : M) :
    (r.set c v).total_sales = r.total_sales := by
  cases c <;> rfl

theorem DailySummary.set_total_transactions (r : DailySummary M) (c : PaymentColumn) (v : M) :
    (r.set c v).total_transactions = r.total_transactions := by
  cases c <;> rfl

theorem DailySummary.set_date (r : DailySummary M) (c : PaymentColumn) (v : M) :
    (r.set c v).date = r.date := by
  cases c <;> rfl

theorem previous_of_no_row {db : Db M} {date : String}
    (h : ∀ r ∈ db.daily_sales_summary, r.date ≠ date) (column : DailySummary M → Int) :
    previous db date column = 0 := by
  unfold previous
  have : db.daily_sales_summary.find? (fun r => r.date == date) = none := by
    rw [List.find?_eq_none]
    intro r hr
    simpa using h r hr
  rw [this]
  rfl

/-- The row updateDailySummary writes: the three listed columns continue the
row of the date, every payment column the statement does not list holds 0. -/
theorem updateDailySummary_some (amount : M) (paymentMethod today : String) (db : Db M)
    {col : PaymentColumn} (hcol : PaymentColumn.ofName (paymentColumn paymentMethod) = some col) :
    ∃ db' row, updateDailySummary amount paymentMethod today db = some db' ∧
      db'.daily_sales_summary
        = db.daily_sales_summary.filter (fun r => r.date != today) ++ [row] ∧
      row.date = today ∧
      row.total_sales = previous db today (fun r => r.total_sales) + amount ∧
      row.get col = previous db today (fun r => r.get col) + amount ∧
      row.total_transactions = previous db today (fun r => r.total_transactions) + 1 ∧
      ∀ c, c ≠ col → row.get c = 0 := by
  cases h : updateDailySummary amount paymentMethod today db with
  | none => simp [updateDailySummary, hcol] at h
  | some db' =>
    simp only [updateDailySummary, hcol, Option.some.injEq] at h
    subst h
    refine ⟨_, _, rfl, rfl, ?_, ?_, ?_, ?_, ?_⟩
    · rw [DailySummary.set_date]
    · rw [DailySummary.set_total_sales]; rfl
    · rw [DailySummary.get_set]; rfl
    · rw [DailySummary.set_total_transactions]; rfl
    · intro c hc
      rw [DailySummary.get_set_of_ne _ _ hc]
      cases c <;> rfl

/-- C6: for a payment method of the accepted list, updateDailySummary
succeeds and leaves exactly one row for the date; its total_sales is the
previous value plus the amount, the column of the payment method is its
previous value plus the amount, total_transactions is the previous value
plus one, where a previous value is the one of the existing row of the date,
or 0 without such a row; without such a row the new row therefore holds the
amount, the amount, 1, and 0 in every other payment column. -/
theorem updateDailySummary_row (amount : Money) (paymentMethod today : String)
    (db : Db Money)
    (hm : paymentMethod ∈ validPaymentMethods) :
    ∃ db' col row, updateDailySummary amount paymentMethod today db = some db' ∧
      PaymentColumn.ofName (paymentColumn paymentMethod) = some col ∧
      db'.daily_sales_summary.filter (fun r => r.date == today) = [row] ∧
      row.total_sales = previous db today (fun r => r.total_sales) + amount ∧
      row.get col = previous db today (fun r => r.get col) + amount ∧
      row.total_transactions = previous db today (fun r => r.total_transactions) + 1 ∧
      ((∀ r ∈ db.daily_sales_summary, r.date ≠ today) →
        row.total_sales = amount ∧ row.get col = amount ∧ row.total_transactions = 1 ∧
          ∀ c, c ≠ col → row.get c = 0) := by
  obtain ⟨col, hcol⟩ := ofName_paymentColumn_of_valid hm
  obtain ⟨db', row, hupd, hrows, hdate, h1, h2, h3, h4⟩ :=
    updateDailySummary_some amount paymentMethod today db hcol
  refine ⟨db', col, row, hupd, hcol, ?_, h1, h2, h3, ?_⟩
  · have hold : (db.daily_sales_summary.filter (fun r => r.date != today)).filter
        (fun r => r.date == today) = [] := by
      rw [List.filter_eq_nil_iff]
      intro r hr
      have := (List.mem_filter.1 hr).2
      simpa using this
    rw [hrows, List.filter_append, hold, List.nil_append]
    simp [List.filter_cons, hdate]
  · intro hno
    rw [previous_of_no_row hno (fun r => r.total_sales)] at h1
    rw [previous_of_no_row hno (fun r => r.get col)] at h2
    rw [previous_of_no_row hno (fun r => r.total_transactions)] at h3
    exact ⟨by simpa using h1, by simpa using h2, by simpa using h3, h4⟩

/-- C6, at a concrete input: a card sale on a date whose row so far holds one
cash sale. -/
theorem updateDailySummary_row_witness :
    "card" ∈ validPaymentMethods ∧
    ∃ db' col row, updateDailySummary 500 "card" "2025-01-01" sampleDbAfterSale = some db' ∧
      PaymentColumn.ofName (paymentColumn "card") = some col ∧
      db'.daily_sales_summary.filter (fun r => r.date == "2025-01-01") = [row] ∧
      row.total_sales = previous sampleDbAfterSale "2025-01-01" (fun r => r.total_sales) + 500 ∧
      row.get col = previous sampleDbAfterSale "2025-01-01" (fun r => r.get col) + 500 ∧
      row.total_transactions
        = previous sampleDbAfterSale "2025-01-01" (fun r => r.total_transactions) + 1 ∧
      ((∀ r ∈ sampleDbAfterSale.daily_sales_summary, r.date ≠ "2025-01-01") →
        row.total_sales = 500 ∧ row.get col = 500 ∧ row.total_transactions = 1 ∧
          ∀ c, c ≠ col → row.get c = 0) :=
  ⟨by decide, updateDailySummary_row 500 "card" "2025-01-01" sampleDbAfterSale (by decide)⟩

/-- C9: the daily-summary read never writes and always answers 200; the
date it reports on is the query value, or today when the query value is
absent or empty; when the table has no row for that date the answer is the
zero-filled summary of the date, with total_sales, the five payment columns
and total_transactions all 0; when the table has a row for the date the
answer is that row. -/
theorem getSummaryDaily_zero_filled (today : String) (date : Option String) (db : Db M) :
    (getSummaryDaily today date db).1 = db ∧
      (∀ d, d ≠ "" → targetDate (some d) today = d) ∧
      ((∀ r ∈ db.daily_sales_summary, r.date ≠ targetDate date today) →
        (getSummaryDaily today date db).2 = .ok
          { id := none, date := targetDate date today, total_sales := 0, cash_sales := 0,
            card_sales := 0, debt_sales := 0, momo_sales := 0, airtel_money_sales := 0,
            total_transactions := 0 }) ∧
      ((∃ r ∈ db.daily_sales_summary, r.date = targetDate date today) →
        ∃ r ∈ db.daily_sales_summary, r.date = targetDate date today ∧
          (getSummaryDaily today date db).2 = .ok r.toView) := by
  refine ⟨?_, ?_, ?_, ?_⟩
  · unfold getSummaryDaily
    simp only
    split <;> rfl
  · intro d hd
    simp [targetDate, hd]
  · intro hno
    have : db.daily_sales_summary.find? (fun r => r.date == targetDate date today) = none := by
      rw [List.find?_eq_none]
      intro r hr
      simpa using hno r hr
    unfold getSummaryDaily
    simp only [this]
  · intro hex
    cases hf : db.daily_sales_summary.find? (fun r => r.date == targetDate date today) with
    | none =>
      exfalso
      rw [List.find?_eq_none] at hf
      obtain ⟨r, hr, hd⟩ := hex
      exact hf r hr (by simpa using hd)
    | some r =>
      refine ⟨r, List.mem_of_find?_eq_some hf, ?_, ?_⟩
      · simpa using List.find?_some hf
      · unfold getSummaryDaily
        simp only [hf]

/-- C9, at concrete inputs: a date without a row and a date with one. -/
theorem getSummaryDaily_zero_filled_witness :
    (∀ r ∈ sampleDbAfterSale.daily_sales_summary, r.date ≠ targetDate (some "2025-01-02") "2025-01-01") ∧
    (∃ r ∈ sampleDbAfterSale.daily_sales_summary, r.date = targetDate none "2025-01-01") ∧
    (getSummaryDaily "2025-01-01" (some "2025-01-02") sampleDbAfterSale).2
      = .ok (emptySummary "2025-01-02") ∧
    (getSummaryDaily "2025-01-01" none sampleDbAfterSale).2
      = .ok { id := some 1, date := "2025-01-01", total_sales := 450, cash_sales := 450,
              card_sales := 0, debt_sales := 0, momo_sales := 0, airtel_money_sales := 0,
              total_transactions := 1 } :=
  ⟨by decide, by decide,
    ((getSummaryDaily_zero_filled "2025-01-01" (some "2025-01-02") sampleDbAfterSale).2.2.1
      (by decide)).trans (by decide),
    by
      obtain ⟨r, hr, _, hres⟩ :=
        (getSummaryDaily_zero_filled "2025-01-01" none sampleDbAfterSale).2.2.2 (by decide)
      rw [hres]
      simp only [sampleDbAfterSale, List.mem_singleton] at hr
      subst hr
      rfl⟩


/-! ## Baskets that repeat a product, and sales of different payment methods -/

/-- C3: evaluation of `POST /` on the basket of one unit and then the whole
stock (100) of product 1: both lines pass the check against the stock read
before any write, the call answers 201, and the stock ends at -1. -/
theorem repeated_product_basket_oversells :
    (postSale sampleEnv (sampleRequest [⟨1, 1⟩, ⟨1, 100⟩] "cash") sampleDb).2
      = some (.created 1 "RCP-1700000000000-1" 15150) ∧
    (getProduct sampleDb 1).map (fun p => p.stock) = some 100 ∧
    (getProduct (postSale sampleEnv (sampleRequest [⟨1, 1⟩, ⟨1, 100⟩] "cash") sampleDb).1 1).map
      (fun p => p.stock) = some (-1) := by
  decide

/-- C4: evaluation of a sequence of two calls of `POST /` from a store whose
stocks are all non-negative: the first call sells product 1, the second asks
twice for the single unit of product 2 and leaves its stock at -1. -/
theorem stock_negative_after_sale_sequence :
    (∀ p ∈ sampleDb.products, 0 ≤ p.stock) ∧
    (postSales [(sampleEnv, sampleRequest [⟨1, 3⟩] "cash"),
                (sampleEnv2, sampleRequest [⟨2, 1⟩, ⟨2, 1⟩] "card")] sampleDb).products.map
      (fun p => (p.id, p.stock)) = [(1, 97), (2, -1)] := by
  decide

/-- C7: evaluation of updateDailySummary for a card sale of 5.00 on a date
whose row holds cash_sales = 4.50: the replaced row has cash_sales = 0. -/
theorem updateDailySummary_resets_other_columns :
    sampleDbAfterSale.daily_sales_summary.map (fun r => (r.date, r.cash_sales, r.card_sales))
      = [("2025-01-01", 450, 0)] ∧
    (updateDailySummary 500 "card" "2025-01-01" sampleDbAfterSale).map
      (fun db => db.daily_sales_summary.map (fun r => (r.date, r.cash_sales, r.card_sales)))
      = some [("2025-01-01", 0, 500)] := by
  decide

/-- C8: evaluation of the daily-summary read after two successful sales on
one date, 4.50 paid in cash and then 3.00 paid by card: the read reports two
transactions and total_sales 7.50, but cash_sales 0 instead of 4.50. -/
theorem daily_summary_loses_earlier_methods :
    (postSale sampleEnv (sampleRequest [⟨1, 3⟩] "cash") sampleDb).2
      = some (.created 1 "RCP-1700000000000-1" 450) ∧
    (postSale sampleEnv2 (sampleRequest [⟨1, 2⟩] "card")
        (postSale sampleEnv (sampleRequest [⟨1, 3⟩] "cash") sampleDb).1).2
      = some (.created 2 "RCP-1700000000500-2" 300) ∧
    (getSummaryDaily "2025-01-01" (some "2025-01-01")
        (postSales [(sampleEnv, sampleRequest [⟨1, 3⟩] "cash"),
                    (sampleEnv2, sampleRequest [⟨1, 2⟩] "card")] sampleDb)).2
      = .ok { id := some 2, date := "2025-01-01", total_sales := 750, cash_sales := 0,
              card_sales := 300, debt_sales := 0, momo_sales := 0, airtel_money_sales := 0,
              total_transactions := 2 } := by
  decide

/-! ## Store failures, receipt collisions, the audit entry -/

theorem postSaleWithFaults_of_no_fault (env : Env) (req : SaleRequest) (db : Db M) :
    postSaleWithFaults { insertSale := false, updateDailySummary := false } env req db
      = postSale env req db := by
  unfold postSaleWithFaults postSale createSaleWithFaults createSale
  simp

/-- C11: evaluation of `POST /` when the store fails the summary upsert: the
call answers 201 and the sale row, the line item and the stock decrement are
committed, while the daily summary has no row for the sale. -/
theorem failed_summary_upsert_is_committed :
    (postSaleWithFaults { insertSale := false, updateDailySummary := true } sampleEnv
        (sampleRequest [⟨1, 3⟩] "cash") sampleDb).2
      = some (.created 1 "RCP-1700000000000-1" 450) ∧
    (postSaleWithFaults { insertSale := false, updateDailySummary := true } sampleEnv
        (sampleRequest [⟨1, 3⟩] "cash") sampleDb).1.sales.map (fun s => (s.id, s.total))
      = [(1, 450)] ∧
    (postSaleWithFaults { insertSale := false, updateDailySummary := true } sampleEnv
        (sampleRequest [⟨1, 3⟩] "cash") sampleDb).1.sale_items.map
          (fun i => (i.sale_id, i.product_id, i.quantity))
      = [(1, 1, 3)] ∧
    (postSaleWithFaults { insertSale := false, updateDailySummary := true } sampleEnv
        (sampleRequest [⟨1, 3⟩] "cash") sampleDb).1.products.map (fun p => (p.id, p.stock))
      = [(1, 97), (2, 1)] ∧
    (postSaleWithFaults { insertSale := false, updateDailySummary := true } sampleEnv
        (sampleRequest [⟨1, 3⟩] "cash") sampleDb).1.daily_sales_summary = [] ∧
    sampleDb.sales = [] ∧ sampleDb.sale_items = [] ∧
    sampleDb.products.map (fun p => (p.id, p.stock)) = [(1, 100), (2, 1)] := by
  decide

theorem insertSale_of_collision {db : Db M} {rn : String}
    (h : ∃ s ∈ db.sales, s.receipt_number = rn) (cashier : Int) (total : M)
    (pm : String) (cn cp notes : Option String) :
    insertSale db rn cashier total pm cn cp notes = none := by
  obtain ⟨s, hs, hrn⟩ := h
  have hany : db.sales.any (fun s => s.receipt_number == rn) = true := by
    rw [List.any_eq_true]
    exact ⟨s, hs, by simpa using hrn⟩
  simp [insertSale, hany]

/-- C12 as stated fails: a call whose receipt number is the one of the sale
already in the store is answered 500 `Failed to create sale`, nothing is
retried and nothing is written. -/
theorem receipt_collision_is_surfaced :
    (∃ s ∈ sampleDbAfterSale.sales, s.receipt_number = sampleEnv.receiptNumber) ∧
    postSale sampleEnv (sampleRequest [⟨1, 1⟩] "cash") sampleDbAfterSale
      = (sampleDbAfterSale, some (.serverError "Failed to create sale")) := by
  decide

/-- C12, amended: when the receipt number of the call is the receipt number
of an existing sale, a request that passed validation and whose lines all
passed their checks is answered 500 `Failed to create sale`, with no retry,
and the database is left as it was. -/
theorem receipt_collision_fails_sale (env : Env) (req : SaleRequest) (db : Db M)
    (hv : validationResult req = true) (hp : ∀ item ∈ req.items, ¬ lineFails db item)
    (hc : ∃ s ∈ db.sales, s.receipt_number = env.receiptNumber) :
    postSale env req db = (db, some (.serverError "Failed to create sale")) := by
  rw [postSale_of_pass hv hp]
  unfold createSale
  simp only [insertSale_of_collision hc]

/-- C12, amended, at a concrete input: two lines that both pass, with the
receipt number of the sale already stored. -/
theorem receipt_collision_fails_sale_witness :
    validationResult (sampleRequest [⟨1, 2⟩, ⟨2, 1⟩] "momo") = true ∧
    (∀ item ∈ (sampleRequest [⟨1, 2⟩, ⟨2, 1⟩] "momo").items,
      ¬ lineFails sampleDbAfterSale item) ∧
    (∃ s ∈ sampleDbAfterSale.sales, s.receipt_number = sampleEnv.receiptNumber) ∧
    postSale sampleEnv (sampleRequest [⟨1, 2⟩, ⟨2, 1⟩] "momo") sampleDbAfterSale
      = (sampleDbAfterSale, some (.serverError "Failed to create sale")) :=
  have hp : ∀ item ∈ (sampleRequest [⟨1, 2⟩, ⟨2, 1⟩] "momo").items,
      ¬ lineFails sampleDbAfterSale item := by
    intro item hi
    rw [← lineDraft_eq_none_iff]
    simp only [sampleRequest, List.mem_cons, List.mem_singleton, List.not_mem_nil,
      or_false] at hi
    rcases hi with rfl | rfl <;> decide
  ⟨by decide, hp, by decide,
    receipt_collision_fails_sale sampleEnv (sampleRequest [⟨1, 2⟩, ⟨2, 1⟩] "momo")
      sampleDbAfterSale (by decide) hp (by decide)⟩

theorem committed_audit_logs (env : Env) (req : SaleRequest) (db1 : Db M) (saleId : Int)
    (ds : List (SaleItemDraft M)) (total : M) :
    ∃ entry : AuditLog, (committed env req db1 saleId ds total).audit_logs
        = db1.audit_logs ++ [entry] ∧
      entry.user_id = env.user_id ∧ entry.action = "CREATE_SALE" ∧
      entry.table_name = "sales" ∧ entry.record_id = saleId := by
  have hfold : ∀ (l : List (SaleItemDraft M)) (d : Db M),
      (l.foldl updateStock d).audit_logs = d.audit_logs := by
    intro l
    induction l with
    | nil => intro d; rfl
    | cons x xs ih => intro d; rw [List.foldl_cons, ih]; rfl
  have hins : ∀ (l : List (SaleItemDraft M)) (d : Db M),
      (l.foldl (insertSaleItem saleId) d).audit_logs = d.audit_logs := by
    intro l
    induction l with
    | nil => intro d; rfl
    | cons x xs ih => intro d; rw [List.foldl_cons, ih]; rfl
  have hsum : ∀ (d : Db M), ((updateDailySummary total req.payment_method env.today d).getD d).audit_logs
      = d.audit_logs := by
    intro d
    cases h : updateDailySummary total req.payment_method env.today d with
    | none => rfl
    | some d' => exact (updateDailySummary_frame h).2.2.2
  unfold committed
  simp only [insertAuditLog, hsum, hfold, hins]
  exact ⟨_, rfl, rfl, rfl, rfl, rfl⟩

/-- C14: a call of `POST /` answered 201 with sale id `id` appends exactly
one row to `audit_logs`, with user_id the cashier of the call (the cashier_id
of the new sale row), action `CREATE_SALE`, table_name `sales` and record_id
`id`; a call with any other answer leaves `audit_logs` as it was. -/
theorem audit_entry_iff_created (env : Env) (req : SaleRequest) (db : Db M) :
    (∀ id rn total, (postSale env req db).2 = some (.created id rn total) →
      (∃ entry : AuditLog, (postSale env req db).1.audit_logs = db.audit_logs ++ [entry] ∧
        entry.user_id = env.user_id ∧ entry.action = "CREATE_SALE" ∧
        entry.table_name = "sales" ∧ entry.record_id = id) ∧
      ∃ sale ∈ (postSale env req db).1.sales, sale.id = id ∧ sale.cashier_id = env.user_id) ∧
    (Response.isCreated (postSale env req db).2 = false →
      (postSale env req db).1.audit_logs = db.audit_logs) := by
  constructor
  · intro id rn total h
    have h' : postSale env req db = ((postSale env req db).1, some (.created id rn total)) :=
      Prod.ext rfl h
    obtain ⟨_, _, _, _, db1, hins, hdb⟩ := postSale_created h'
    obtain ⟨_, hsales, _, _, _, haudit⟩ := insertSale_some hins
    constructor
    · obtain ⟨entry, hentry, h1, h2, h3, h4⟩ :=
        committed_audit_logs env req db1 id (drafts db req.items) total
      exact ⟨entry, by rw [hdb, hentry, haudit], h1, h2, h3, h4⟩
    · rw [hdb, committed_sales, hsales]
      exact ⟨_, List.mem_append_right _ (List.mem_singleton_self _), rfl, rfl⟩
  · intro h
    rw [postSale_not_created h]

/-- C14, at concrete inputs: a call answered 201 and a call answered 400. -/
theorem audit_entry_iff_created_witness :
    (postSale sampleEnv2 (sampleRequest [⟨1, 2⟩] "debt") sampleDbAfterSale).2
      = some (.created 2 "RCP-1700000000500-2" 300) ∧
    ((∃ entry : AuditLog,
        (postSale sampleEnv2 (sampleRequest [⟨1, 2⟩] "debt") sampleDbAfterSale).1.audit_logs
          = sampleDbAfterSale.audit_logs ++ [entry] ∧
        entry.user_id = sampleEnv2.user_id ∧ entry.action = "CREATE_SALE" ∧
        entry.table_name = "sales" ∧ entry.record_id = 2) ∧
      ∃ sale ∈ (postSale sampleEnv2 (sampleRequest [⟨1, 2⟩] "debt") sampleDbAfterSale).1.sales,
        sale.id = 2 ∧ sale.cashier_id = sampleEnv2.user_id) ∧
    Response.isCreated
      (postSale sampleEnv2 (sampleRequest [⟨2, 5⟩] "debt") sampleDbAfterSale).2 = false ∧
    (postSale sampleEnv2 (sampleRequest [⟨2, 5⟩] "debt") sampleDbAfterSale).1.audit_logs
      = sampleDbAfterSale.audit_logs :=
  ⟨by decide,
    (audit_entry_iff_created sampleEnv2 (sampleRequest [⟨1, 2⟩] "debt") sampleDbAfterSale).1
      2 "RCP-1700000000500-2" 300 (by decide),
    by decide,
    (audit_entry_iff_created sampleEnv2 (sampleRequest [⟨2, 5⟩] "debt") sampleDbAfterSale).2
      (by decide)⟩

/-! ## The validator chain -/

theorem all_eq_false_iff_exists {α : Type} (p : α → Bool) (l : List α) :
    l.all p = false ↔ ∃ x ∈ l, p x = false := by
  induction l with
  | nil => simp
  | cons x xs ih =>
    cases hp : p x
    · simp [List.all_cons, hp]
    · simp [List.all_cons, hp, ih]

theorem isInt_none_one_eq_false_iff (value : Scalar) :
    isInt none (.one value) = false ↔ ∀ n, Value.one value ≠ .one (.int n) := by
  cases value <;> simp [isInt, Value.elements, Scalar.isInt]

theorem isInt_min_one_eq_false_iff (m : Int) (value : Scalar) :
    isInt (some m) (.one value) = false ↔ ∀ n, Value.one value = .one (.int n) → n < m := by
  cases value <;> simp [isInt, Value.elements, Scalar.isInt]

theorem isIn_one_other_eq_false_iff (options : List String) (text : String) :
    isIn options (.one (.other text)) = false
      ↔ ∀ m ∈ options, Value.one (.other text) ≠ .one (.other m) := by
  simp only [isIn, Value.elements, Scalar.toText, List.all_cons, List.all_nil, Bool.and_true,
    ne_eq, Value.one.injEq, Scalar.other.injEq]
  constructor
  · intro h m hm heq
    subst heq
    simp [hm] at h
  · intro h
    cases hc : options.contains text with
    | false => rfl
    | true => exact absurd rfl (h text (by simpa using hc))

theorem isInt_one_of_true {min : Option Int} {value : Scalar}
    (h : isInt min (.one value) = true) :
    ∃ n, value = .int n ∧ ∀ m, min = some m → m ≤ n := by
  cases value with
  | other text => simp [isInt, Value.elements, Scalar.isInt] at h
  | int n =>
    refine ⟨n, rfl, ?_⟩
    intro m hm
    subst hm
    simpa [isInt, Value.elements, Scalar.isInt] using h

/-- On a body without array fields the chain reports an error exactly when
the body is one of those the claim lists. -/
theorem errorsIsEmpty_eq_false_iff_of_scalars {body : Body} (hs : body.scalars) :
    body.errorsIsEmpty = false ↔ body.rejected := by
  obtain ⟨⟨text, hpm⟩, hfields⟩ := hs
  unfold Body.errorsIsEmpty Body.rejected
  cases hitems : body.items with
  | none => simp [isArray]
  | some entries =>
    have hf := hfields entries hitems
    simp only [Option.getD_some, Bool.and_eq_false_iff, all_eq_false_iff_exists,
      Option.some.injEq, forall_eq', exists_eq_left', isArray]
    have hlen : decide (1 ≤ entries.length) = false ↔ entries = [] := by
      cases entries <;> simp
    have hpid : (∃ x ∈ entries, isInt none x.product_id = false)
        ↔ ∃ item ∈ entries, ∀ n, item.product_id ≠ .one (.int n) := by
      constructor
      · rintro ⟨x, hx, h⟩
        obtain ⟨value, hv⟩ := (hf x hx).1
        rw [hv] at h
        exact ⟨x, hx, by rw [hv]; exact (isInt_none_one_eq_false_iff value).1 h⟩
      · rintro ⟨x, hx, h⟩
        obtain ⟨value, hv⟩ := (hf x hx).1
        rw [hv] at h
        exact ⟨x, hx, by rw [hv]; exact (isInt_none_one_eq_false_iff value).2 h⟩
    have hqty : (∃ x ∈ entries, isInt (some 1) x.quantity = false)
        ↔ ∃ item ∈ entries, ∀ n, item.quantity = .one (.int n) → n < 1 := by
      constructor
      · rintro ⟨x, hx, h⟩
        obtain ⟨value, hv⟩ := (hf x hx).2
        rw [hv] at h
        exact ⟨x, hx, by rw [hv]; exact (isInt_min_one_eq_false_iff 1 value).1 h⟩
      · rintro ⟨x, hx, h⟩
        obtain ⟨value, hv⟩ := (hf x hx).2
        rw [hv] at h
        exact ⟨x, hx, by rw [hv]; exact (isInt_min_one_eq_false_iff 1 value).2 h⟩
    have hin : isIn validPaymentMethods body.payment_method = false
        ↔ ∀ m ∈ validPaymentMethods, body.payment_method ≠ .one (.other m) := by
      rw [hpm]
      exact isIn_one_other_eq_false_iff validPaymentMethods text
    rw [hlen, hpid, hqty, hin]
    constructor
    · rintro (((h | h) | h) | h)
      · exact Or.inl h
      · exact Or.inr (Or.inr (Or.inl h))
      · exact Or.inr (Or.inl h)
      · exact Or.inr (Or.inr (Or.inr h))
    · rintro (h | h | h | h)
      · exact Or.inl (Or.inl (Or.inl h))
      · exact Or.inl (Or.inr h)
      · exact Or.inl (Or.inl (Or.inr h))
      · exact Or.inr h

theorem postSale_of_valid {env : Env} {req : SaleRequest} {db : Db M}
    (hv : validationResult req = true) :
    postSale env req db = saleTransaction env req db := by
  simp [postSale, saleTransaction, hv]

theorem toItems?_of_isInt (entries : List RawItem)
    (hf : ∀ item ∈ entries,
      (∃ value, item.product_id = .one value) ∧ ∃ value, item.quantity = .one value)
    (hp : ∀ item ∈ entries, isInt none item.product_id = true)
    (hq : ∀ item ∈ entries, isInt (some 1) item.quantity = true) :
    ∃ items, toItems? entries = some items ∧
      List.Forall₂ (fun (raw : RawItem) (item : Item) =>
        raw.product_id = .one (.int item.product_id) ∧
        raw.quantity = .one (.int item.quantity) ∧ 1 ≤ item.quantity) entries items := by
  induction entries with
  | nil => exact ⟨[], rfl, List.Forall₂.nil⟩
  | cons e es ih =>
    obtain ⟨items, hitems, hrel⟩ := ih
      (fun x hx => hf x (List.mem_cons_of_mem _ hx))
      (fun x hx => hp x (List.mem_cons_of_mem _ hx))
      (fun x hx => hq x (List.mem_cons_of_mem _ hx))
    obtain ⟨⟨pv, hpv⟩, ⟨qv, hqv⟩⟩ := hf e (List.mem_cons_self _ _)
    have hp1 := hp e (List.mem_cons_self _ _)
    have hq1 := hq e (List.mem_cons_self _ _)
    rw [hpv] at hp1
    rw [hqv] at hq1
    obtain ⟨pn, rfl, _⟩ := isInt_one_of_true hp1
    obtain ⟨qn, rfl, hmin⟩ := isInt_one_of_true hq1
    refine ⟨{ product_id := pn, quantity := qn } :: items, ?_,
      List.Forall₂.cons ⟨hpv, hqv, hmin 1 rfl⟩ hrel⟩
    simp [toItems?, RawItem.toItem?, Value.int?, hpv, hqv, hitems]

theorem forall₂_quantity_pos {entries : List RawItem} {items : List Item}
    (h : List.Forall₂ (fun (raw : RawItem) (item : Item) =>
        raw.product_id = .one (.int item.product_id) ∧
        raw.quantity = .one (.int item.quantity) ∧ 1 ≤ item.quantity) entries items) :
    ∀ item ∈ items, 1 ≤ item.quantity := by
  induction h with
  | nil => intro item hi; simp at hi
  | cons hhead _ ih =>
    intro item hi
    rcases List.mem_cons.1 hi with rfl | hmem
    · exact hhead.2.2
    · exact ih item hmem

/-- On a body without array fields the route does what the claim says: a
body the claim lists is answered 400 `Validation failed`, whatever the
database holds and without changing it; any other body is handed, with the
product ids and quantities it carries, to the transaction engine. -/
theorem validation_gate_of_scalars (env : Env) (body : Body) (db : Db M)
    (hs : body.scalars) :
    (body.rejected →
      routerPost env body db = some (db, some (.badRequest "Validation failed"))) ∧
    (¬ body.rejected →
      ∃ req entries, body.items = some entries ∧
        List.Forall₂ (fun (raw : RawItem) (item : Item) =>
          raw.product_id = .one (.int item.product_id) ∧
          raw.quantity = .one (.int item.quantity) ∧ 1 ≤ item.quantity) entries req.items ∧
        body.payment_method = .one (.other req.payment_method) ∧
        routerPost env body db = some (saleTransaction env req db)) := by
  constructor
  · intro h
    have he := (errorsIsEmpty_eq_false_iff_of_scalars hs).2 h
    simp [routerPost, dispatch, he]
  · intro h
    have he : body.errorsIsEmpty = true := by
      cases hb : body.errorsIsEmpty with
      | true => rfl
      | false => exact absurd ((errorsIsEmpty_eq_false_iff_of_scalars hs).1 hb) h
    obtain ⟨⟨text, hpm⟩, hfields⟩ := hs
    have he' := he
    unfold Body.errorsIsEmpty at he'
    simp only [Bool.and_eq_true] at he'
    obtain ⟨⟨⟨harr, hp⟩, hq⟩, hin⟩ := he'
    cases hitems : body.items with
    | none => simp [isArray, hitems] at harr
    | some entries =>
      rw [hitems] at hp hq harr
      simp only [Option.getD_some, List.all_eq_true] at hp hq
      obtain ⟨items, htoItems, hrel⟩ := toItems?_of_isInt entries (hfields entries hitems) hp hq
      have hreq : body.toRequest? = some
          { items := items, payment_method := text, customer_name := body.customer_name,
            customer_phone := body.customer_phone, notes := body.notes } := by
        simp [Body.toRequest?, hitems, hpm, Value.text?, Scalar.toText, htoItems]
      have hne : items ≠ [] := by
        intro hnil
        subst hnil
        cases hrel
        simp [isArray] at harr
      have hvalid : validationResult
          { items := items, payment_method := text, customer_name := body.customer_name,
            customer_phone := body.customer_phone, notes := body.notes } = true := by
        unfold validationResult
        simp only [Bool.and_eq_true, List.all_eq_true, decide_eq_true_eq]
        refine ⟨⟨?_, ?_⟩, ?_⟩
        · cases items with
          | nil => exact absurd rfl hne
          | cons x xs => rfl
        · exact forall₂_quantity_pos hrel
        · rw [hpm] at hin
          simpa [isIn, Value.elements, Scalar.toText] using hin
      refine ⟨{ items := items, payment_method := text, customer_name := body.customer_name,
                customer_phone := body.customer_phone, notes := body.notes },
        entries, rfl, hrel, hpm, ?_⟩
      rw [← postSale_of_valid hvalid]
      simp [routerPost, dispatch, he, hreq]

/-- C13: evaluation of the validator chain on two bodies the claim lists, one
whose quantity is the array `[3]` and one whose product id is the empty
array: the chain reports no error on either, so neither is answered 400
`Validation failed`, and the handler goes on to the database with them. -/
theorem array_fields_pass_validation :
    sampleArrayQuantityBody.rejected ∧ sampleArrayProductBody.rejected ∧
    sampleArrayQuantityBody.errorsIsEmpty = true ∧
    sampleArrayProductBody.errorsIsEmpty = true ∧
    dispatch sampleArrayQuantityBody = .unfollowed ∧
    dispatch sampleArrayProductBody = .unfollowed ∧
    routerPost sampleEnv sampleArrayQuantityBody sampleDb
      ≠ some (sampleDb, some (.badRequest "Validation failed")) ∧
    routerPost sampleEnv sampleArrayProductBody sampleDb
      ≠ some (sampleDb, some (.badRequest "Validation failed")) := by
  refine ⟨?_, ?_, by decide, by decide, by decide, by decide, by decide, by decide⟩
  · exact Or.inr (Or.inl ⟨_, rfl, _, List.mem_singleton_self _, fun n h => by cases h⟩)
  · exact Or.inr (Or.inr (Or.inl ⟨_, rfl, _, List.mem_singleton_self _,
      fun n h => by cases h⟩))

/-! ## Payment methods and summary columns -/

theorem paymentColumn_injective (m m' : String) (h : paymentColumn m = paymentColumn m') :
    m = m' := by
  unfold paymentColumn at h
  have hd := congrArg String.data h
  simp only [String.data_append] at hd
  exact String.ext (List.append_cancel_right hd)

/-- C18: the payment methods the validator accepts are those the CHECK
constraint of `sales` allows; for each of them the column name built by
updateDailySummary is one of the payment columns of `daily_sales_summary`
and resolves to it; different methods give different column names; every
payment field of the zero-filled summary, and every payment column of the
table, is the column of some accepted method. -/
theorem payment_methods_and_columns :
    (∀ m, m ∈ validPaymentMethods ↔ m ∈ checkPaymentMethods) ∧
    (∀ m ∈ validPaymentMethods, paymentColumn m ∈ dailySummaryPaymentColumns ∧
      (PaymentColumn.ofName (paymentColumn m)).isSome = true) ∧
    (∀ m m', paymentColumn m = paymentColumn m' → m = m') ∧
    (∀ c ∈ emptySummaryPaymentFields, ∃ m ∈ validPaymentMethods, paymentColumn m = c) ∧
    (∀ c ∈ dailySummaryPaymentColumns, ∃ m ∈ validPaymentMethods, paymentColumn m = c) ∧
    (∀ col : PaymentColumn, ∃ m ∈ validPaymentMethods,
      PaymentColumn.ofName (paymentColumn m) = some col) := by
  refine ⟨fun m => Iff.rfl, by decide, paymentColumn_injective, by decide, by decide, ?_⟩
  intro col
  cases col <;> decide

/-- C18, at a concrete input: the method `airtel_money`. -/
theorem payment_methods_and_columns_witness :
    "airtel_money" ∈ validPaymentMethods ∧ "airtel_money" ∈ checkPaymentMethods ∧
    paymentColumn "airtel_money" ∈ dailySummaryPaymentColumns ∧
    (PaymentColumn.ofName (paymentColumn "airtel_money")).isSome = true ∧
    (∃ m ∈ validPaymentMethods, paymentColumn m = "airtel_money_sales") :=
  ⟨by decide, (payment_methods_and_columns.1 "airtel_money").1 (by decide),
    (payment_methods_and_columns.2.1 "airtel_money" (by decide)).1,
    (payment_methods_and_columns.2.1 "airtel_money" (by decide)).2,
    payment_methods_and_columns.2.2.2.1 "airtel_money_sales" (by decide)⟩

/-! ## Baskets of distinct products -/

theorem not_lineFails_iff (db : Db M) (item : Item) :
    ¬ lineFails db item ↔
      ∃ product, getProduct db item.product_id = some product ∧
        item.quantity ≤ product.stock := by
  unfold lineFails
  cases hp : getProduct db item.product_id with
  | none => simp
  | some product => simp

theorem insertSale_of_fresh {db : Db M} {rn pm : String}
    (hr : ∀ s ∈ db.sales, s.receipt_number ≠ rn) (hpm : pm ∈ checkPaymentMethods)
    (cashier : Int) (total : M) (cn cp notes : Option String) :
    ∃ db1 id, insertSale db rn cashier total pm cn cp notes = some (db1, id) := by
  have hany : db.sales.any (fun s => s.receipt_number == rn) = false := by
    rw [List.any_eq_false]
    intro s hs
    simpa using hr s hs
  simp [insertSale, hany, hpm]

theorem payment_method_mem_of_valid {req : SaleRequest} (hv : validationResult req = true) :
    req.payment_method ∈ validPaymentMethods := by
  unfold validationResult at hv
  simp only [Bool.and_eq_true] at hv
  simpa using hv.2

/-- A validated request whose lines all pass and whose receipt number is new
is answered 201. -/
theorem postSale_isCreated_of_pass {env : Env} {req : SaleRequest} {db : Db M}
    (hv : validationResult req = true) (hp : ∀ item ∈ req.items, ¬ lineFails db item)
    (hr : ∀ s ∈ db.sales, s.receipt_number ≠ env.receiptNumber) :
    Response.isCreated (postSale env req db).2 = true := by
  obtain ⟨db1, id, hins⟩ := insertSale_of_fresh hr (payment_method_mem_of_valid hv) env.user_id
    ((drafts db req.items).foldl (fun acc d => acc + d.total_price) 0) req.customer_name
    req.customer_phone req.notes
  rw [postSale_of_pass hv hp]
  unfold createSale
  simp only [hins]
  cases hds : drafts db req.items with
  | nil => exact absurd hds (drafts_ne_nil hv hp)
  | cons d ds => rfl

theorem postSale_pass_of_isCreated {env : Env} {req : SaleRequest} {db : Db M}
    (h : Response.isCreated (postSale env req db).2 = true) :
    validationResult req = true ∧ (∀ item ∈ req.items, ¬ lineFails db item) ∧
      ∃ id rn total, postSale env req db = ((postSale env req db).1, some (.created id rn total)) := by
  cases hr : postSale env req db with
  | mk db' r =>
    rw [hr] at h
    cases r with
    | none => simp [Response.isCreated] at h
    | some resp =>
      cases resp with
      | badRequest m => simp [Response.isCreated] at h
      | serverError m => simp [Response.isCreated] at h
      | created id rn total =>
        obtain ⟨hv, hp, _⟩ := postSale_created hr
        exact ⟨hv, hp, id, rn, total, rfl⟩

theorem filter_product_id_of_nodup (product_id : Int) (items : List Item)
    (hd : (items.map (fun item => item.product_id)).Nodup) :
    items.filter (fun item => item.product_id == product_id) = [] ∨
      ∃ item ∈ items, item.product_id = product_id ∧
        items.filter (fun item => item.product_id == product_id) = [item] := by
  induction items with
  | nil => exact Or.inl rfl
  | cons item rest ih =>
    rw [List.map_cons, List.nodup_cons] at hd
    obtain ⟨hnot, hrest⟩ := hd
    by_cases hid : item.product_id = product_id
    · right
      refine ⟨item, List.mem_cons_self _ _, hid, ?_⟩
      have hnil : rest.filter (fun item => item.product_id == product_id) = [] := by
        rw [List.filter_eq_nil_iff]
        intro x hx hbeq
        apply hnot
        rw [hid]
        exact List.mem_map.2 ⟨x, hx, by simpa using hbeq⟩
      simp [List.filter_cons, hid, hnil]
    · have hstep : (item :: rest).filter (fun item => item.product_id == product_id)
          = rest.filter (fun item => item.product_id == product_id) := by
        simp [List.filter_cons, hid]
      rw [hstep]
      rcases ih hrest with h | ⟨x, hx, hxid, hf⟩
      · exact Or.inl h
      · exact Or.inr ⟨x, List.mem_cons_of_mem _ hx, hxid, hf⟩

/-- C16: for a validated request whose lines name pairwise distinct products
and whose receipt number is new, on a store whose product ids are unique and
whose stocks are all non-negative: the call is answered 201 if and only if
every line names an existing product with stock at least the quantity of the
line, and after a 201 every stock is still non-negative. -/
theorem distinct_basket_created_iff (env : Env) (req : SaleRequest) (db : Db M)
    (hv : validationResult req = true)
    (hr : ∀ s ∈ db.sales, s.receipt_number ≠ env.receiptNumber)
    (hd : (req.items.map (fun item => item.product_id)).Nodup)
    (hk : (db.products.map (fun p => p.id)).Nodup)
    (h0 : ∀ p ∈ db.products, 0 ≤ p.stock) :
    (Response.isCreated (postSale env req db).2 = true ↔
      ∀ item ∈ req.items, ∃ product, getProduct db item.product_id = some product ∧
        item.quantity ≤ product.stock) ∧
    (Response.isCreated (postSale env req db).2 = true →
      ∀ p ∈ (postSale env req db).1.products, 0 ≤ p.stock) := by
  constructor
  · constructor
    · intro h item hi
      exact (not_lineFails_iff db item).1 ((postSale_pass_of_isCreated h).2.1 item hi)
    · intro h
      exact postSale_isCreated_of_pass hv
        (fun item hi => (not_lineFails_iff db item).2 (h item hi)) hr
  · intro h p' hp'
    obtain ⟨_, hpass, _⟩ := postSale_pass_of_isCreated h
    rw [postSale_products, h] at hp'
    obtain ⟨p, hp, rfl⟩ := List.mem_map.1 hp'
    simp only [if_true]
    have hstock := h0 p hp
    unfold basketQuantity
    rcases filter_product_id_of_nodup p.id req.items hd with hnil | ⟨item, hi, hid, hone⟩
    · rw [hnil]
      simpa using hstock
    · rw [hone]
      obtain ⟨product, hget, hle⟩ := (not_lineFails_iff db item).1 (hpass item hi)
      have hmem : product ∈ db.products := List.mem_of_find?_eq_some hget
      have hpid : product.id = item.product_id := by
        have := List.find?_some hget
        simpa using this
      have heq : product = p :=
        List.inj_on_of_nodup_map hk hmem hp (hpid.trans hid)
      subst heq
      simp only [List.map_cons, List.map_nil, List.sum_cons, List.sum_nil, add_zero]
      omega

/-- C16, at a concrete input: two lines of distinct products, the second
taking the last unit of product 2. -/
theorem distinct_basket_created_iff_witness :
    validationResult (sampleRequest [⟨1, 5⟩, ⟨2, 1⟩] "card") = true ∧
    (∀ s ∈ sampleDbAfterSale.sales, s.receipt_number ≠ sampleEnv2.receiptNumber) ∧
    ((sampleRequest [⟨1, 5⟩, ⟨2, 1⟩] "card").items.map (fun item => item.product_id)).Nodup ∧
    (sampleDbAfterSale.products.map (fun p => p.id)).Nodup ∧
    (∀ p ∈ sampleDbAfterSale.products, 0 ≤ p.stock) ∧
    Response.isCreated
      (postSale sampleEnv2 (sampleRequest [⟨1, 5⟩, ⟨2, 1⟩] "card") sampleDbAfterSale).2 = true ∧
    (∀ item ∈ (sampleRequest [⟨1, 5⟩, ⟨2, 1⟩] "card").items,
      ∃ product, getProduct sampleDbAfterSale item.product_id = some product ∧
        item.quantity ≤ product.stock) ∧
    (∀ p ∈ (postSale sampleEnv2 (sampleRequest [⟨1, 5⟩, ⟨2, 1⟩] "card")
        sampleDbAfterSale).1.products, 0 ≤ p.stock) :=
  ⟨by decide, by decide, by decide, by decide, by decide, by decide,
    (distinct_basket_created_iff sampleEnv2 (sampleRequest [⟨1, 5⟩, ⟨2, 1⟩] "card")
      sampleDbAfterSale (by decide) (by decide) (by decide) (by decide) (by decide)).1.1
      (by decide),
    (distinct_basket_created_iff sampleEnv2 (sampleRequest [⟨1, 5⟩, ⟨2, 1⟩] "card")
      sampleDbAfterSale (by decide) (by decide) (by decide) (by decide) (by decide)).2
      (by decide)⟩

/-! ## The running totals of the daily summary -/

theorem previous_congr {α : Type} [Zero α] {db db' : Db M}
    (h : db'.daily_sales_summary = db.daily_sales_summary)
    (date : String) (column : DailySummary M → α) :
    previous db' date column = previous db date column := by
  unfold previous
  rw [h]

theorem previous_of_filter_singleton {db : Db M} {date : String} {row : DailySummary M}
    (h : db.daily_sales_summary.filter (fun r => r.date == date) = [row])
    {α : Type} [Zero α] (column : DailySummary M → α) :
    previous db date column = column row := by
  unfold previous
  rw [← List.filter_head?, h]
  rfl

/-- After REPLACE the date has exactly the row just written. -/
theorem filter_date_of_replace {rows rows' : List (DailySummary M)} {today : String}
    {row : DailySummary M}
    (h : rows' = rows.filter (fun r => r.date != today) ++ [row]) (hdate : row.date = today) :
    rows'.filter (fun r => r.date == today) = [row] := by
  have hold : (rows.filter (fun r => r.date != today)).filter (fun r => r.date == today)
      = [] := by
    rw [List.filter_eq_nil_iff]
    intro r hr
    have := (List.mem_filter.1 hr).2
    simpa using this
  rw [h, List.filter_append, hold, List.nil_append]
  simp [List.filter_cons, hdate]

theorem committed_daily (env : Env) (req : SaleRequest) (db1 : Db M) (saleId : Int)
    (ds : List (SaleItemDraft M)) (total : M) :
    (committed env req db1 saleId ds total).daily_sales_summary
      = ((updateDailySummary total req.payment_method env.today
          ((reorder env.itemOrder ds).foldl updateStock
            ((reorder env.itemOrder ds).foldl (insertSaleItem saleId) db1))).getD
          ((reorder env.itemOrder ds).foldl updateStock
            ((reorder env.itemOrder ds).foldl (insertSaleItem saleId) db1))).daily_sales_summary := by
  rfl

/-- The summary row of the date of the call after a 201: a single row, whose
total_sales and total_transactions continue the values read before the call. -/
theorem postSale_created_summary {env : Env} {req : SaleRequest} {db db' : Db M} {id : Int}
    {rn : String} {total : M}
    (h : postSale env req db = (db', some (.created id rn total))) :
    ∃ row, db'.daily_sales_summary.filter (fun r => r.date == env.today) = [row] ∧
      row.total_sales = previous db env.today (fun r => r.total_sales) + total ∧
      row.total_transactions = previous db env.today (fun r => r.total_transactions) + 1 := by
  obtain ⟨hv, _, _, _, db1, hins, hdb⟩ := postSale_created h
  obtain ⟨_, _, _, _, hdaily, _⟩ := insertSale_some hins
  have hd3 : ((reorder env.itemOrder (drafts db req.items)).foldl updateStock
      ((reorder env.itemOrder (drafts db req.items)).foldl
        (insertSaleItem id) db1)).daily_sales_summary = db.daily_sales_summary := by
    rw [foldl_updateStock_daily, foldl_insertSaleItem_daily, hdaily]
  obtain ⟨col, hcol⟩ := ofName_paymentColumn_of_valid (payment_method_mem_of_valid hv)
  obtain ⟨db4, row, hupd, hrows, hrdate, h1, _, h3, _⟩ :=
    updateDailySummary_some total req.payment_method env.today
      ((reorder env.itemOrder (drafts db req.items)).foldl updateStock
        ((reorder env.itemOrder (drafts db req.items)).foldl (insertSaleItem id) db1)) hcol
  refine ⟨row, ?_, ?_, ?_⟩
  · rw [hdb, committed_daily, hupd]
    exact filter_date_of_replace hrows hrdate
  · rw [h1, previous_congr hd3 env.today (fun r => r.total_sales)]
  · rw [h3, previous_congr hd3 env.today (fun r => r.total_transactions)]

theorem postSales_cons (call : Env × SaleRequest) (calls : List (Env × SaleRequest)) (db : Db M) :
    postSales (call :: calls) db = postSales calls (postSale call.1 call.2 db).1 := by
  simp [postSales]

/-- C17: after a sequence of calls of `POST /` that all carry the date
`date` and are all answered 201, whatever their payment methods, the
total_sales read for the date is the value read before the sequence plus
the sum of the totals of the calls, and total_transactions is the value read
before plus the number of calls (a value read is the one of the row of the
date, 0 without a row); after at least one call the date has exactly one
row, which holds these two values. -/
theorem summary_totals_accumulate (date : String) (calls : List (Env × SaleRequest)) (db : Db Money)
    (hdate : ∀ call ∈ calls, call.1.today = date)
    (hok : ∀ r ∈ postSalesResponses calls db, Response.isCreated r = true) :
    previous (postSales calls db) date (fun r => r.total_sales)
      = previous db date (fun r => r.total_sales)
        + ((postSalesResponses calls db).map Response.total).sum ∧
    previous (postSales calls db) date (fun r => r.total_transactions)
      = previous db date (fun r => r.total_transactions) + calls.length ∧
    (calls ≠ [] →
      ∃ row, (postSales calls db).daily_sales_summary.filter (fun r => r.date == date) = [row] ∧
        row.total_sales = previous db date (fun r => r.total_sales)
          + ((postSalesResponses calls db).map Response.total).sum ∧
        row.total_transactions = previous db date (fun r => r.total_transactions)
          + calls.length) := by
  induction calls generalizing db with
  | nil =>
    refine ⟨?_, ?_, fun h => absurd rfl h⟩
    · simp [postSales, postSalesResponses]
    · simp [postSales]
  | cons call calls ih =>
    have hcall : call.1.today = date := hdate call (List.mem_cons_self _ _)
    have hcreated : Response.isCreated (postSale call.1 call.2 db).2 = true :=
      hok _ (List.mem_cons_self _ _)
    obtain ⟨_, _, id, rn, total, hpost⟩ := postSale_pass_of_isCreated hcreated
    obtain ⟨row, hrow, hts, htt⟩ := postSale_created_summary hpost
    rw [hcall] at hrow hts htt
    have htotal : Response.total (postSale call.1 call.2 db).2 = total := by
      rw [hpost]; rfl
    obtain ⟨ih1, ih2, ih3⟩ := ih (postSale call.1 call.2 db).1
      (fun c hc => hdate c (List.mem_cons_of_mem _ hc))
      (fun r hr => hok r (List.mem_cons_of_mem _ hr))
    have hp1 := previous_of_filter_singleton hrow (fun r => r.total_sales)
    have hp2 := previous_of_filter_singleton hrow (fun r => r.total_transactions)
    simp only at hp1 hp2
    have e1 : previous (postSales (call :: calls) db) date (fun r => r.total_sales)
        = previous db date (fun r => r.total_sales)
          + ((postSalesResponses (call :: calls) db).map Response.total).sum := by
      rw [postSales_cons, ih1, hp1, hts]
      simp only [postSalesResponses, List.map_cons, List.sum_cons, htotal]
      exact add_assoc _ _ _
    have e2 : previous (postSales (call :: calls) db) date (fun r => r.total_transactions)
        = previous db date (fun r => r.total_transactions) + (call :: calls).length := by
      rw [postSales_cons, ih2, hp2, htt]
      simp only [List.length_cons, Nat.cast_add, Nat.cast_one]
      omega
    refine ⟨e1, e2, fun _ => ?_⟩
    cases calls with
    | nil =>
      refine ⟨row, ?_, ?_, ?_⟩
      · rw [postSales_cons]; exact hrow
      · rw [← hp1, ← e1]; rfl
      · rw [← hp2, ← e2]; rfl
    | cons c cs =>
      obtain ⟨row', hrow', _, _⟩ := ih3 (List.cons_ne_nil _ _)
      refine ⟨row', ?_, ?_, ?_⟩
      · rw [postSales_cons]; exact hrow'
      · have := previous_of_filter_singleton hrow' (fun r => r.total_sales)
        simp only at this
        rw [← this, ← postSales_cons, e1]
      · have := previous_of_filter_singleton hrow' (fun r => r.total_transactions)
        simp only at this
        rw [← this, ← postSales_cons, e2]

/-- C17, at a concrete input: a cash sale of 4.50 and a card sale of 3.00 on
one date, from a store without a row for the date. -/
theorem summary_totals_accumulate_witness :
    (∀ call ∈ [(sampleEnv, sampleRequest [⟨1, 3⟩] "cash"),
               (sampleEnv2, sampleRequest [⟨1, 2⟩] "card")], call.1.today = "2025-01-01") ∧
    (∀ r ∈ postSalesResponses [(sampleEnv, sampleRequest [⟨1, 3⟩] "cash"),
        (sampleEnv2, sampleRequest [⟨1, 2⟩] "card")] sampleDb, Response.isCreated r = true) ∧
    ((postSalesResponses [(sampleEnv, sampleRequest [⟨1, 3⟩] "cash"),
        (sampleEnv2, sampleRequest [⟨1, 2⟩] "card")] sampleDb).map Response.total) = [450, 300] ∧
    (postSales [(sampleEnv, sampleRequest [⟨1, 3⟩] "cash"),
        (sampleEnv2, sampleRequest [⟨1, 2⟩] "card")] sampleDb).daily_sales_summary.map
          (fun r => (r.date, r.total_sales, r.total_transactions)) = [("2025-01-01", 750, 2)] ∧
    previous (postSales [(sampleEnv, sampleRequest [⟨1, 3⟩] "cash"),
        (sampleEnv2, sampleRequest [⟨1, 2⟩] "card")] sampleDb) "2025-01-01"
          (fun r => r.total_sales)
      = previous sampleDb "2025-01-01" (fun r => r.total_sales)
        + ((postSalesResponses [(sampleEnv, sampleRequest [⟨1, 3⟩] "cash"),
            (sampleEnv2, sampleRequest [⟨1, 2⟩] "card")] sampleDb).map Response.total).sum :=
  ⟨by decide, by decide, by decide, by decide,
    (summary_totals_accumulate "2025-01-01" [(sampleEnv, sampleRequest [⟨1, 3⟩] "cash"),
      (sampleEnv2, sampleRequest [⟨1, 2⟩] "card")] sampleDb (by decide) (by decide)).1⟩

end Supermarket

